import Mathlib

/-!
Verification of the SoftVoice wrapper (softvoice_wrapper.cpp) against its
natural-language specification.  The C++ source is shallowly embedded:
pure helpers become Lean functions, the per-utterance worker logic and the
output-queue operations become explicit state-passing functions, and the
concurrent loops (the enqueue drop loop, the chunk splitter) are encoded
with an explicit fuel argument that is always instantiated large enough
for the loop to run to completion.
-/

namespace SoftVoice

/-- Stream item types, mirroring SV_ITEM_NONE/AUDIO/DONE/ERROR. -/
inductive ItemType where
  | none
  | audio
  | done
  | error
deriving DecidableEq

/-- One output-queue item, mirroring struct StreamItem. `data` is the byte
payload for AUDIO items and `offset` counts the bytes already delivered. -/
structure StreamItem where
  type : ItemType
  value : Int
  gen : Nat
  data : List Nat
  offset : Nat
deriving DecidableEq

/-- Bytes of an item not yet delivered: data.size() - offset, with the
guarded subtraction of the source matching Nat subtraction. -/
def itemRemaining (it : StreamItem) : Nat :=
  it.data.length - it.offset

/-- Sum of (data.size - offset) over the AUDIO items of a queue: the value
the tracked queuedAudioBytes counter is supposed to hold. -/
def audioBytesOf : List StreamItem → Nat
  | [] => 0
  | it :: rest =>
    (if it.type = ItemType.audio then itemRemaining it else 0) + audioBytesOf rest

/-- Wave format captured by hook_waveOutOpen (WAVEFORMATEX fields used by
the trimmer). -/
structure WaveFormat where
  formatTag : Nat
  channels : Nat
  samplesPerSec : Nat
  avgBytesPerSec : Nat
  blockAlign : Nat
  bitsPerSample : Nat
deriving DecidableEq

/-- A queued SPEAK command (struct Cmd with type CMD_SPEAK). -/
structure SpeakCmd where
  cancelSnapshot : Nat
  text : List Nat
deriving DecidableEq

/-- The wrapper state fields that the embedded operations touch
(struct SV_STATE, restricted to the queue/generation/trim machinery). -/
structure SV_STATE where
  cancelToken : Nat
  genCounter : Nat
  activeGen : Nat
  currentGen : Nat
  outQ : List StreamItem
  queuedAudioBytes : Nat
  maxBufferedBytes : Nat
  maxQueueItems : Nat
  bytesPerSec : Nat
  trimSilence : Bool
  pauseFactor : Int
  leadTrimDoneGen : Nat
  tailTrimDoneGen : Nat
  formatValid : Bool
  lastFormat : WaveFormat
  cmdQ : List SpeakCmd
deriving DecidableEq

/-- clearOutputQueueLocked: drop all items and zero the byte counter. -/
def clearOutputQueueLocked (s : SV_STATE) : SV_STATE :=
  { s with outQ := [], queuedAudioBytes := 0 }

/-- computeBufferLimits: bytes/sec (default 22050 when zero) times 60
seconds, clamped into [256 KiB, 8 MiB]. -/
def computeBufferLimits (bytesPerSec : Nat) : Nat :=
  let bps := if bytesPerSec = 0 then 22050 else bytesPerSec
  let bytes := bps * 60
  let bytes := if bytes < 256 * 1024 then 256 * 1024 else bytes
  let bytes := if bytes > 8 * 1024 * 1024 then 8 * 1024 * 1024 else bytes
  bytes

/-- The dropOneAudio lambda of enqueueAudioFromHook: erase the first AUDIO
item of the queue and debit its remaining bytes from the counter
(saturating, as in the source), or fail when no AUDIO item exists. -/
def dropOneAudio : List StreamItem → Nat → Option (List StreamItem × Nat)
  | [], _ => Option.none
  | it :: rest, bytes =>
    if it.type = ItemType.audio then
      Option.some (rest, bytes - itemRemaining it)
    else
      match dropOneAudio rest bytes with
      | Option.none => Option.none
      | Option.some (rest2, b2) => Option.some (it :: rest2, b2)

/-- The while loop of enqueueAudioFromHook: while the byte ceiling or the
item cap would be exceeded, drop the oldest AUDIO item; give up (dropping
the incoming item) when no AUDIO remains.  `fuel` bounds the iteration
count; any fuel of at least (number of AUDIO items + 1) lets the loop run
to completion exactly as the source while loop does.  Returns the queue,
the counter and whether the new item may be inserted. -/
def enqueueDropLoop (limit cap newSize : Nat) :
    Nat → List StreamItem → Nat → List StreamItem × Nat × Bool
  | fuel, q, bytes =>
    if bytes + newSize > limit ∨ q.length ≥ cap then
      match dropOneAudio q bytes with
      | Option.none => (q, bytes, false)
      | Option.some (q2, b2) =>
        match fuel with
        | 0 => (q2, b2, false)
        | fuel2 + 1 => enqueueDropLoop limit cap newSize fuel2 q2 b2
    else (q, bytes, true)

/-- enqueueAudioFromHook: under the queue lock, reject empty buffers and
buffers from a generation other than the current one, then enforce the
byte ceiling and the item cap by dropping oldest AUDIO items, and append
the new AUDIO item when it fits. -/
def enqueueAudioFromHook (s : SV_STATE) (gen : Nat) (data : List Nat) : SV_STATE :=
  if data = [] then s
  else if s.currentGen = 0 ∨ gen ≠ s.currentGen then s
  else
    let limit := if s.maxBufferedBytes > 0 then s.maxBufferedBytes else 512 * 1024
    let r := enqueueDropLoop limit s.maxQueueItems data.length
      (s.outQ.length + 1) s.outQ s.queuedAudioBytes
    if r.2.2 then
      { s with
        outQ := r.1 ++ [{ type := ItemType.audio, value := 0, gen := gen,
                          data := data, offset := 0 }],
        queuedAudioBytes := r.2.1 + data.length }
    else { s with outQ := r.1, queuedAudioBytes := r.2.1 }

/-- pushMarker: append a DONE/ERROR marker unless the generation is stale. -/
def pushMarker (s : SV_STATE) (t : ItemType) (v : Int) (gen : Nat) : SV_STATE :=
  if s.currentGen = 0 ∨ gen ≠ s.currentGen then s
  else
    { s with outQ := s.outQ ++ [{ type := t, value := v, gen := gen,
                                  data := [], offset := 0 }] }

/-- sv_stop: bump the cancel token, zero both generation gates, clear the
output queue and the pending commands (the event signalling has no
observable effect in the sequential embedding). -/
def sv_stop (s : SV_STATE) : SV_STATE :=
  { s with
    cancelToken := s.cancelToken + 1,
    activeGen := 0,
    currentGen := 0,
    outQ := [],
    queuedAudioBytes := 0,
    cmdQ := [] }

/-- The start of a worker utterance (workerLoop): allocate the next
generation (fetch_add returns the old counter), open both gates and clear
the output queue.  Returns the new state and the allocated generation. -/
def beginUtterance (s : SV_STATE) : SV_STATE × Nat :=
  let gen := s.genCounter
  ({ s with
      genCounter := s.genCounter + 1,
      currentGen := gen,
      activeGen := gen,
      outQ := [],
      queuedAudioBytes := 0 }, gen)

/- ------------------------------------------------------------
Text sanitation (sanitizeForSoftVoiceCp1252) and chunk splitting
(splitSoftVoiceTextIntoChunks).  Wide strings and byte strings are both
embedded as List Nat (UTF-16 code units / CP1252 bytes).
------------------------------------------------------------ -/

/-- The per-character mapping of the wide cleanup loop: NBSP becomes a
space, and control characters (below 0x20 except CR/LF/TAB, and
0x7F..0x9F) become spaces. -/
def mapWideChar (ch : Nat) : Nat :=
  let ch := if ch = 0xA0 then 32 else ch
  if (ch < 0x20 ∧ ch ≠ 13 ∧ ch ≠ 10 ∧ ch ≠ 9) ∨ (0x7F ≤ ch ∧ ch ≤ 0x9F) then 32 else ch

/-- Whitespace test of the cleanup loops (space, tab, CR, LF). -/
def isSpaceChar (ch : Nat) : Bool :=
  ch = 32 ∨ ch = 9 ∨ ch = 13 ∨ ch = 10

/-- The whitespace-collapsing loop: a run of whitespace becomes one space
unless it follows a previous space (prevSpace starts true, so leading
whitespace is dropped). -/
def collapseSpaces : List Nat → Bool → List Nat
  | [], _ => []
  | c :: rest, prevSpace =>
    if isSpaceChar c then
      if prevSpace then collapseSpaces rest true
      else 32 :: collapseSpaces rest true
    else c :: collapseSpaces rest false

/-- The trailing-space trim (`while (!tmp.empty() && tmp.back() == L' ')`). -/
def dropTrailingSpaces (l : List Nat) : List Nat :=
  (l.reverse.dropWhile (fun c => c = 32)).reverse

/-- The wide cleanup pass of sanitizeForSoftVoiceCp1252: map characters,
collapse whitespace, trim. -/
def cleanupWide (inp : List Nat) : List Nat :=
  dropTrailingSpaces (collapseSpaces (inp.map mapWideChar) true)

/-- Modelled from the spec: the platform conversion to the single-byte
code page (WideCharToMultiByte to code page 1252 with
WC_NO_BEST_FIT_CHARS), an external API the wrapper calls.  CP1252 maps
ASCII identically, maps 0xA0..0xFF identically (the Latin-1 superset) and
maps 27 specific characters into 0x80..0x9F; everything else is unmapped.
With no-best-fit conversion an unmapped character yields the caller's
default character (the wrapper passes a space). -/
def cp1252Encode (c : Nat) : Option Nat :=
  if c < 0x80 then Option.some c
  else if c = 0x20AC then Option.some 0x80
  else if c = 0x201A then Option.some 0x82
  else if c = 0x0192 then Option.some 0x83
  else if c = 0x201E then Option.some 0x84
  else if c = 0x2026 then Option.some 0x85
  else if c = 0x2020 then Option.some 0x86
  else if c = 0x2021 then Option.some 0x87
  else if c = 0x02C6 then Option.some 0x88
  else if c = 0x2030 then Option.some 0x89
  else if c = 0x0160 then Option.some 0x8A
  else if c = 0x2039 then Option.some 0x8B
  else if c = 0x0152 then Option.some 0x8C
  else if c = 0x017D then Option.some 0x8E
  else if c = 0x2018 then Option.some 0x91
  else if c = 0x2019 then Option.some 0x92
  else if c = 0x201C then Option.some 0x93
  else if c = 0x201D then Option.some 0x94
  else if c = 0x2022 then Option.some 0x95
  else if c = 0x2013 then Option.some 0x96
  else if c = 0x2014 then Option.some 0x97
  else if c = 0x02DC then Option.some 0x98
  else if c = 0x2122 then Option.some 0x99
  else if c = 0x0161 then Option.some 0x9A
  else if c = 0x203A then Option.some 0x9B
  else if c = 0x0153 then Option.some 0x9C
  else if c = 0x017E then Option.some 0x9E
  else if c = 0x0178 then Option.some 0x9F
  else if 0xA0 ≤ c ∧ c ≤ 0xFF then Option.some c
  else Option.none

/-- One converted byte: the CP1252 image, or the default character
(space) when the character is unmapped. -/
def cp1252ByteOrSpace (c : Nat) : Nat :=
  match cp1252Encode c with
  | Option.some b => b
  | Option.none => 32

/-- sanitizeForSoftVoiceCp1252: wide cleanup, CP1252 conversion with
space as the default character, replacement of every question mark by a
space, then a second collapse-and-trim pass. -/
def sanitizeForSoftVoiceCp1252 (inp : List Nat) : List Nat :=
  let tmp := cleanupWide inp
  if tmp = [] then []
  else
    let out := tmp.map cp1252ByteOrSpace
    let out := out.map (fun c => if c = 63 then 32 else c)
    dropTrailingSpaces (collapseSpaces out true)

/-- First index of a space byte in a list, if any. -/
def firstSpaceIdx : List Nat → Option Nat
  | [] => Option.none
  | c :: rest =>
    if c = 32 then Option.some 0
    else
      match firstSpaceIdx rest with
      | Option.none => Option.none
      | Option.some i => Option.some (i + 1)

/-- The post-split space skip (`while (start < size && text[start] == ' ')`). -/
def skipLeadingSpaces : List Nat → List Nat
  | [] => []
  | c :: rest => if c = 32 then skipLeadingSpaces rest else c :: rest

/-- The split-point computation of one splitting iteration: the first
space at or after the chunkChars boundary (`text.find(' ', start +
chunkChars)`), falling back to a hard split at exactly chunkChars when no
space exists there. -/
def splitPoint (chunkChars : Nat) (rest : List Nat) : Nat :=
  match firstSpaceIdx (rest.drop chunkChars) with
  | Option.some i => chunkChars + i
  | Option.none => chunkChars

/-- The while loop of splitSoftVoiceTextIntoChunks, phrased on the suffix
of the text still to split (the source tracks the absolute index
`start`).  One fuel unit is spent per loop iteration; each iteration
consumes at least one byte, so fuel = text.length always suffices. -/
def splitChunksLoop (chunkChars : Nat) : Nat → List Nat → List (List Nat)
  | 0, _ => []
  | fuel + 1, rest =>
    if rest = [] then []
    else if rest.length ≤ chunkChars then [rest]
    else
      let split := splitPoint chunkChars rest
      let piece := if 0 < split then [rest.take split] else []
      piece ++ splitChunksLoop chunkChars fuel (skipLeadingSpaces (rest.drop split))

/-- splitSoftVoiceTextIntoChunks: empty text or zero chunk size yields no
chunks, otherwise run the splitting loop. -/
def splitSoftVoiceTextIntoChunks (text : List Nat) (chunkChars : Nat) : List (List Nat) :=
  if text = [] ∨ chunkChars = 0 then []
  else splitChunksLoop chunkChars text.length text

/- ------------------------------------------------------------
Settings store and the worker's per-utterance settings application.
------------------------------------------------------------ -/

/-- One knob of the settings store (struct SettingInt): value, dirty flag
and user-set flag. -/
structure SettingInt where
  value : Int
  dirty : Bool
  userSet : Bool
deriving DecidableEq

/-- The fixed set of knobs (the SettingInt fields of SV_STATE). -/
structure Settings where
  rate : SettingInt
  pitch : SettingInt
  f0Range : SettingInt
  f0Perturb : SettingInt
  vowelFactor : SettingInt
  avBias : SettingInt
  afBias : SettingInt
  ahBias : SettingInt
  personality : SettingInt
  f0Style : SettingInt
  voicingMode : SettingInt
  gender : SettingInt
  glottalSource : SettingInt
  speakingMode : SettingInt
  voice : SettingInt
deriving DecidableEq

/-- One engine invocation made by the worker (the seh_-wrapped SoftVoice
entry points). -/
inductive EngineCall where
  | setRate (v : Int)
  | setPitch (v : Int)
  | setF0Range (v : Int)
  | setF0Perturb (v : Int)
  | setVowelFactor (v : Int)
  | setAVBias (v : Int)
  | setAFBias (v : Int)
  | setAHBias (v : Int)
  | setPersonality (v : Int)
  | setF0Style (v : Int)
  | setVoicingMode (v : Int)
  | setGender (v : Int)
  | setGlottalSource (v : Int)
  | setSpeakingMode (v : Int)
  | setLanguage (v : Int)
  | openSpeech (v : Int)
  | closeSpeech
  | abortSpeech
  | tts (chunk : List Nat)
deriving DecidableEq

/-- Which optional engine setters resolved to non-null entry points (the
source checks these before calling; required entry points are always
present once init succeeded). -/
structure FnAvail where
  personality : Bool
  f0Style : Bool
  voicingMode : Bool
  gender : Bool
  glottalSource : Bool
  speakingMode : Bool
  setLanguage : Bool
deriving DecidableEq

/-- The apply lambda of applyNumericSettingsOnWorker.  Note the C++
short-circuit: `force || dirty.exchange(0)` leaves the dirty flag intact
when force is true. -/
def applyNumericOne (st : SettingInt) (force : Bool) (mk : Int → EngineCall) :
    SettingInt × List EngineCall :=
  if force then (st, [mk st.value])
  else if st.dirty then ({ st with dirty := false }, [mk st.value])
  else (st, [])

/-- applyNumericSettingsOnWorker: apply the eight numeric knobs in source
order, threading the store and collecting the engine calls. -/
def applyNumericSettingsOnWorker (cfg : Settings) (force : Bool) :
    Settings × List EngineCall :=
  let r1 := applyNumericOne cfg.rate force EngineCall.setRate
  let r2 := applyNumericOne cfg.pitch force EngineCall.setPitch
  let r3 := applyNumericOne cfg.f0Range force EngineCall.setF0Range
  let r4 := applyNumericOne cfg.f0Perturb force EngineCall.setF0Perturb
  let r5 := applyNumericOne cfg.vowelFactor force EngineCall.setVowelFactor
  let r6 := applyNumericOne cfg.avBias force EngineCall.setAVBias
  let r7 := applyNumericOne cfg.afBias force EngineCall.setAFBias
  let r8 := applyNumericOne cfg.ahBias force EngineCall.setAHBias
  ({ cfg with
      rate := r1.1, pitch := r2.1, f0Range := r3.1, f0Perturb := r4.1,
      vowelFactor := r5.1, avBias := r6.1, afBias := r7.1, ahBias := r8.1 },
   r1.2 ++ r2.2 ++ r3.2 ++ r4.2 ++ r5.2 ++ r6.2 ++ r7.2 ++ r8.2)

/-- discardTimbreDirtyOnWorker: clear the dirty flags of all timbre knobs
except rate. -/
def discardTimbreDirtyOnWorker (cfg : Settings) : Settings :=
  { cfg with
    pitch := { cfg.pitch with dirty := false },
    f0Range := { cfg.f0Range with dirty := false },
    f0Perturb := { cfg.f0Perturb with dirty := false },
    vowelFactor := { cfg.vowelFactor with dirty := false },
    avBias := { cfg.avBias with dirty := false },
    afBias := { cfg.afBias with dirty := false },
    ahBias := { cfg.ahBias with dirty := false } }

/-- applyStyleSettingOnWorker: a style knob is applied only when its
setter resolved and the user explicitly set it; when forced, the dirty
flag is left intact (C++ short-circuit of `forceIfUserSet || exchange`). -/
def applyStyleSettingOnWorker (hasFn : Bool) (st : SettingInt) (forceIfUserSet : Bool)
    (mk : Int → EngineCall) : SettingInt × List EngineCall :=
  if hasFn = false then (st, [])
  else if st.userSet = false then (st, [])
  else if forceIfUserSet then (st, [mk st.value])
  else if st.dirty then ({ st with dirty := false }, [mk st.value])
  else (st, [])

/-- applyPersonalityOnWorker: when the user never set the personality the
dirty flag is cleared and nothing is applied; otherwise apply when forced
(voice switch) or dirty.  Returns the updated knob, the calls and whether
the personality was applied. -/
def applyPersonalityOnWorker (hasFn : Bool) (st : SettingInt) (forceIfUserSet : Bool) :
    SettingInt × List EngineCall × Bool :=
  if hasFn = false then (st, [], false)
  else if st.userSet = false then ({ st with dirty := false }, [], false)
  else if forceIfUserSet then (st, [EngineCall.setPersonality st.value], true)
  else if st.dirty then ({ st with dirty := false }, [EngineCall.setPersonality st.value], true)
  else (st, [], false)

/-- Result of the worker's per-utterance settings application, with the
engine-call trace split by pass so that each pass can be inspected. -/
structure SettingsPhaseResult where
  settings : Settings
  persCalls : List EngineCall
  numericCalls : List EngineCall
  rateCalls : List EngineCall
  styleCalls : List EngineCall
  personalityApplied : Bool
  forcedNumeric : Bool
deriving DecidableEq

/-- workerLoop lines 1186-1221: personality first, then the timbre-dirty
discard and the generic numeric pass, then the unconditional rate
re-apply after a non-zero personality, then the five style knobs. -/
def applySettingsPhase (cfg : Settings) (fns : FnAvail) (voiceChanged : Bool) :
    SettingsPhaseResult :=
  let pr := applyPersonalityOnWorker fns.personality cfg.personality voiceChanged
  let cfg1 : Settings := { cfg with personality := pr.1 }
  let personalityApplied := pr.2.2
  let persVal := cfg1.personality.value
  let persUserSet := cfg1.personality.userSet
  let persNonZero := persUserSet && decide (persVal ≠ 0)
  let cfg2 := if personalityApplied && decide (persVal ≠ 0)
    then discardTimbreDirtyOnWorker cfg1 else cfg1
  let forceNumeric := (voiceChanged && !persNonZero)
    || (personalityApplied && decide (persVal = 0))
  let nr := applyNumericSettingsOnWorker cfg2 forceNumeric
  let cfg3 := nr.1
  let rateCalls := if personalityApplied && decide (persVal ≠ 0)
    then [EngineCall.setRate cfg3.rate.value] else []
  let forceStyle := voiceChanged || personalityApplied
  let s1 := applyStyleSettingOnWorker fns.f0Style cfg3.f0Style forceStyle EngineCall.setF0Style
  let s2 := applyStyleSettingOnWorker fns.voicingMode cfg3.voicingMode forceStyle EngineCall.setVoicingMode
  let s3 := applyStyleSettingOnWorker fns.gender cfg3.gender forceStyle EngineCall.setGender
  let s4 := applyStyleSettingOnWorker fns.glottalSource cfg3.glottalSource forceStyle EngineCall.setGlottalSource
  let s5 := applyStyleSettingOnWorker fns.speakingMode cfg3.speakingMode forceStyle EngineCall.setSpeakingMode
  { settings := { cfg3 with
      f0Style := s1.1, voicingMode := s2.1, gender := s3.1,
      glottalSource := s4.1, speakingMode := s5.1 },
    persCalls := pr.2.1,
    numericCalls := nr.2,
    rateCalls := rateCalls,
    styleCalls := s1.2 ++ s2.2 ++ s3.2 ++ s4.2 ++ s5.2,
    personalityApplied := personalityApplied,
    forcedNumeric := forceNumeric }

/-- All engine calls of the settings phase, in emission order. -/
def settingsPhaseCalls (r : SettingsPhaseResult) : List EngineCall :=
  r.persCalls ++ r.numericCalls ++ r.rateCalls ++ r.styleCalls

/-- setSetting: store the value, set the dirty flag, and mark user-set
for public setters. -/
def setSetting (st : SettingInt) (v : Int) (isUserSet : Bool) : SettingInt :=
  { st with
    value := v
    dirty := true
    userSet := if isUserSet then true else st.userSet }

/-- The wrapper-only lead configuration touched by sv_setSpeakingMode and
sv_setMaxLeadMs. -/
structure LeadCfg where
  speakingMode : SettingInt
  maxLeadMs : Int
  autoLead : Bool
deriving DecidableEq

/-- sv_setSpeakingMode: store the knob; while auto-lead is active, set
max-lead-ms to 250 for the word-at-a-time and spelled modes (1 and 2) and
back to 2000 otherwise. -/
def sv_setSpeakingMode (s : LeadCfg) (v : Int) : LeadCfg :=
  let s := { s with speakingMode := setSetting s.speakingMode v true }
  if s.autoLead then
    let lead : Int := if v = 1 ∨ v = 2 then 250 else 2000
    { s with maxLeadMs := lead }
  else s

/-- sv_setMaxLeadMs: clamp into [0, 15000], disable the auto-lead tuning
(pinning the value), and store. -/
def sv_setMaxLeadMs (s : LeadCfg) (maxLeadMs : Int) : LeadCfg :=
  let v := if maxLeadMs < 0 then 0 else maxLeadMs
  let v := if v > 15000 then 15000 else v
  { s with autoLead := false, maxLeadMs := v }

/- ------------------------------------------------------------
Silence trimming helpers (read-time, conservative).
------------------------------------------------------------ -/

/-- abs16 on a little-endian 16-bit sample given as two bytes: magnitude
of the signed 16-bit value lo + 256*hi. -/
def sampleAbs16 (lo hi : Nat) : Nat :=
  let v := lo + 256 * hi
  if v < 32768 then v else 65536 - v

/-- abs8u: distance of an unsigned 8-bit sample from the midpoint 128. -/
def abs8u (v : Nat) : Nat :=
  if v < 128 then 128 - v else v - 128

/-- thresholdFor8Bit: map a 16-bit threshold into 8-bit amplitude space,
clamped into [1, 127]. -/
def thresholdFor8Bit (threshold16 : Nat) : Nat :=
  let t := threshold16 / 64
  let t := if t < 1 then 1 else t
  let t := if t > 127 then 127 else t
  t

/-- The bytes of frame `i` of an interleaved buffer. -/
def frameBytes (data : List Nat) (blockAlign i : Nat) : List Nat :=
  (data.drop (i * blockAlign)).take blockAlign

/-- isSilentFramePCM16: every channel sample is within the threshold. -/
def isSilentFramePCM16 (frame : List Nat) (ch threshold16 : Nat) : Bool :=
  (List.range ch).all fun c =>
    sampleAbs16 (frame.getD (2 * c) 0) (frame.getD (2 * c + 1) 0) ≤ threshold16

/-- isSilentFramePCM8: every channel sample is within the threshold. -/
def isSilentFramePCM8 (frame : List Nat) (ch threshold8 : Nat) : Bool :=
  (List.range ch).all fun c => abs8u (frame.getD c 0) ≤ threshold8

/-- The forward scan of computeLeadingTrimBytesLocked: number of silent
frames from frame `i` on, stopping at the first non-silent frame,
scanning at most `budget` frames. -/
def countSilentFwd (data : List Nat) (blockAlign : Nat) (silent : List Nat → Bool) :
    Nat → Nat → Nat
  | 0, _ => 0
  | budget + 1, i =>
    if silent (frameBytes data blockAlign i) then
      1 + countSilentFwd data blockAlign silent budget (i + 1)
    else 0

/-- The backward scan of computeTrailingTrimBytesLocked: number of silent
frames from frame `idx` going down, stopping at the first non-silent
frame or below `startFrame`, scanning at most `budget` frames. -/
def countSilentBwd (data : List Nat) (blockAlign : Nat) (silent : List Nat → Bool)
    (startFrame : Nat) : Nat → Nat → Nat
  | 0, _ => 0
  | budget + 1, idx =>
    if idx < startFrame then 0
    else if silent (frameBytes data blockAlign idx) then
      1 + (match idx with
        | 0 => 0
        | idx2 + 1 => countSilentBwd data blockAlign silent startFrame budget idx2)
    else 0

/-- The silence predicate selected by the trimmers from the format. -/
def silentFrameFor (fmt : WaveFormat) (threshold16 : Nat) : List Nat → Bool :=
  fun frame =>
    if fmt.bitsPerSample = 16 then isSilentFramePCM16 frame fmt.channels threshold16
    else isSilentFramePCM8 frame fmt.channels (thresholdFor8Bit threshold16)

/-- computeLeadingTrimBytesLocked: format checks, then scan forward over
at most maxFrames frames of an undelivered item, retain keepFrames, and
return the byte count to trim. -/
def computeLeadingTrimBytesLocked (formatValid : Bool) (fmt : WaveFormat)
    (it : StreamItem) (bytesPerSec : Nat) (maxTrimMs keepMs threshold16 : Nat) : Nat :=
  if formatValid = false then 0
  else if fmt.blockAlign = 0 ∨ fmt.channels = 0 then 0
  else if fmt.formatTag ≠ 1 then 0
  else if fmt.bitsPerSample ≠ 8 ∧ fmt.bitsPerSample ≠ 16 then 0
  else
    let bytesPerSample := if fmt.bitsPerSample = 8 then 1 else 2
    let minAlign := fmt.channels * bytesPerSample
    let blockAlign := fmt.blockAlign
    if blockAlign < minAlign then 0
    else if it.offset ≠ 0 then 0
    else
      let totalFrames := it.data.length / blockAlign
      if totalFrames = 0 then 0
      else
        let maxFrames := if bytesPerSec ≠ 0 ∧ 0 < maxTrimMs
          then (bytesPerSec * maxTrimMs / 1000) / blockAlign else totalFrames
        let keepFrames := if bytesPerSec ≠ 0 ∧ 0 < keepMs
          then (bytesPerSec * keepMs / 1000) / blockAlign else 0
        let scanFrames := if maxFrames < totalFrames then maxFrames else totalFrames
        if scanFrames = 0 then 0
        else
          let silent := silentFrameFor fmt threshold16
          let i := countSilentFwd it.data blockAlign silent scanFrames 0
          if i ≤ keepFrames then 0 else (i - keepFrames) * blockAlign

/-- computeTrailingTrimBytesLocked: format checks, then scan backward over
the undelivered whole frames of the item, retain keepFrames, clamp to the
scan window and to the undelivered bytes. -/
def computeTrailingTrimBytesLocked (formatValid : Bool) (fmt : WaveFormat)
    (it : StreamItem) (bytesPerSec : Nat) (maxTrimMs keepMs threshold16 : Nat) : Nat :=
  if formatValid = false then 0
  else if fmt.blockAlign = 0 ∨ fmt.channels = 0 then 0
  else if fmt.formatTag ≠ 1 then 0
  else if fmt.bitsPerSample ≠ 8 ∧ fmt.bitsPerSample ≠ 16 then 0
  else
    let bytesPerSample := if fmt.bitsPerSample = 8 then 1 else 2
    let minAlign := fmt.channels * bytesPerSample
    let blockAlign := fmt.blockAlign
    if blockAlign < minAlign then 0
    else
      let dataSz := it.data.length
      if dataSz < blockAlign then 0
      else
        let off := it.offset
        if off ≥ dataSz then 0
        else
          let scanEnd := (dataSz / blockAlign) * blockAlign
          if scanEnd = 0 ∨ off ≥ scanEnd then 0
          else
            let scanStart := ((off + blockAlign - 1) / blockAlign) * blockAlign
            if scanStart ≥ scanEnd then 0
            else
              let totalFrames := scanEnd / blockAlign
              let startFrame := scanStart / blockAlign
              let availableFrames := totalFrames - startFrame
              if availableFrames = 0 then 0
              else
                let maxFrames := if bytesPerSec ≠ 0 ∧ 0 < maxTrimMs
                  then (bytesPerSec * maxTrimMs / 1000) / blockAlign else availableFrames
                let keepFrames := if bytesPerSec ≠ 0 ∧ 0 < keepMs
                  then (bytesPerSec * keepMs / 1000) / blockAlign else 0
                let scanFrames := if maxFrames < availableFrames then maxFrames else availableFrames
                if scanFrames = 0 then 0
                else
                  let silent := silentFrameFor fmt threshold16
                  let trailing := countSilentBwd it.data blockAlign silent startFrame
                    scanFrames (totalFrames - 1)
                  if trailing ≤ keepFrames then 0
                  else
                    let trimBytes := (trailing - keepFrames) * blockAlign
                    let maxTrimBytes := scanEnd - scanStart
                    let trimBytes := if trimBytes > maxTrimBytes then maxTrimBytes else trimBytes
                    let remaining := dataSz - off
                    let trimBytes := if trimBytes > remaining then remaining else trimBytes
                    trimBytes

/- ------------------------------------------------------------
sv_read.
------------------------------------------------------------ -/

/-- What one sv_read call returned: the byte count, the item type and
value written to the out-parameters, the successor state, and the
generation of the item the call reported (if any). -/
structure ReadResult where
  bytes : Nat
  rtype : ItemType
  rvalue : Int
  state : SV_STATE
  deliveredGen : Option Nat
deriving DecidableEq

/-- The stale-item drop loop at the head of sv_read: pop leading items of
a generation other than the current one, debiting the byte counter for
AUDIO items (saturating subtraction as in the source). -/
def dropStaleLoop (curGen : Nat) : List StreamItem → Nat → List StreamItem × Nat
  | [], bytes => ([], bytes)
  | it :: rest, bytes =>
    if it.gen ≠ curGen then
      let bytes2 := if it.type = ItemType.audio then bytes - itemRemaining it else bytes
      dropStaleLoop curGen rest bytes2
    else (it :: rest, bytes)

/-- The leading-trim application of sv_read: advance the offset of the
first AUDIO item by the computed trim (clamped to the item size) and
debit the byte counter. -/
def leadTrimFirstAudio (trimOf : StreamItem → Nat) :
    List StreamItem → Nat → List StreamItem × Nat
  | [], bytes => ([], bytes)
  | it :: rest, bytes =>
    if it.type = ItemType.audio then
      let trim := trimOf it
      if 0 < trim then
        let trim := if trim > it.data.length then it.data.length else trim
        ({ it with offset := it.offset + trim } :: rest, bytes - trim)
      else (it :: rest, bytes)
    else
      let p := leadTrimFirstAudio trimOf rest bytes
      (it :: p.1, p.2)

/-- Pop AUDIO items at the front that have become empty after the lead
trim. -/
def popEmptyFrontAudio : List StreamItem → List StreamItem
  | [] => []
  | it :: rest =>
    if it.type = ItemType.audio ∧ it.offset ≥ it.data.length then popEmptyFrontAudio rest
    else it :: rest

/-- The trailing-trim adjustment of one AUDIO item in sv_read: clamp the
computed trim to the undelivered bytes, shrink the data, debit the byte
counter. -/
def trailTrimAdjust (trimOf : StreamItem → Nat) (it : StreamItem) (bytes : Nat) :
    StreamItem × Nat :=
  let oldSz := it.data.length
  let oldOff := it.offset
  let trim := trimOf it
  if 0 < trim ∧ oldOff < oldSz then
    let remaining := oldSz - oldOff
    let trim := if trim > remaining then remaining else trim
    if 0 < trim then
      let newSz := oldSz - trim
      if oldOff ≤ newSz then ({ it with data := it.data.take newSz }, bytes - trim)
      else (it, bytes)
    else (it, bytes)
  else (it, bytes)

/-- Apply the trailing trim to the last AUDIO item, scanning from the back
(phrased on the reversed queue). -/
def tailTrimLastAudioRev (trimOf : StreamItem → Nat) :
    List StreamItem → Nat → List StreamItem × Nat
  | [], bytes => ([], bytes)
  | it :: rest, bytes =>
    if it.type = ItemType.audio then
      let p := trailTrimAdjust trimOf it bytes
      (p.1 :: rest, p.2)
    else
      let p := tailTrimLastAudioRev trimOf rest bytes
      (it :: p.1, p.2)

/-- The tail-trim pass of sv_read on the queue in normal order. -/
def tailTrimLastAudio (trimOf : StreamItem → Nat) (q : List StreamItem) (bytes : Nat) :
    List StreamItem × Nat :=
  let p := tailTrimLastAudioRev trimOf q.reverse bytes
  (p.1.reverse, p.2)

/-- The trim block of sv_read (executed when trim-silence is enabled and
the format is known): lead trim once per generation with empty-item
cleanup, then tail trim once per generation when a DONE marker is already
queued.  Returns the updated queue, counter and trim generations. -/
def svReadTrimBlock (s : SV_STATE) (curGen : Nat) (q : List StreamItem) (bytes : Nat) :
    List StreamItem × Nat × Nat × Nat :=
  let bps := s.bytesPerSec
  let pf := s.pauseFactor
  let pf := if pf < 0 then 0 else pf
  let pf := if pf > 100 then 100 else pf
  let pfn := pf.toNat
  let maxTrimLeadMs := 200 + pfn * 12
  let keepLeadMs := 8
  let maxTrimTailMs := 250 + pfn * 12
  let keepTailMs := 10
  let threshold := 48 + pfn * 2
  let leadStep :=
    if s.leadTrimDoneGen ≠ curGen then
      let p := leadTrimFirstAudio
        (fun it => computeLeadingTrimBytesLocked s.formatValid s.lastFormat it bps
          maxTrimLeadMs keepLeadMs threshold) q bytes
      (popEmptyFrontAudio p.1, p.2, curGen)
    else (q, bytes, s.leadTrimDoneGen)
  let q1 := leadStep.1
  let b1 := leadStep.2.1
  let lead1 := leadStep.2.2
  if q1 = [] then (q1, b1, lead1, s.tailTrimDoneGen)
  else
    if s.tailTrimDoneGen ≠ curGen then
      let hasDone := q1.any fun it => it.type = ItemType.done
      if hasDone then
        let p := tailTrimLastAudio
          (fun it => computeTrailingTrimBytesLocked s.formatValid s.lastFormat it bps
            maxTrimTailMs keepTailMs threshold) q1 b1
        (p.1, p.2, lead1, curGen)
      else (q1, b1, lead1, s.tailTrimDoneGen)
    else (q1, b1, lead1, s.tailTrimDoneGen)

/-- The final dispatch of sv_read on the (stale-dropped, trimmed) state:
deliver the front item — a partial AUDIO copy of at most outCap bytes
(advancing the offset, debiting the counter and popping the item when
exhausted), or a popped DONE/ERROR marker. -/
def svReadDeliver (s1 : SV_STATE) (outCap : Int) : ReadResult :=
  match s1.outQ with
  | [] =>
    { bytes := 0, rtype := ItemType.none, rvalue := 0, state := s1,
      deliveredGen := Option.none }
  | front :: rest =>
    if front.type = ItemType.audio then
      let remainingSz := front.data.length - front.offset
      let remaining := if remainingSz > 2147483647 then 2147483647 else remainingSz
      let n := if remaining > outCap.toNat then outCap.toNat else remaining
      let front2 := if 0 < n then { front with offset := front.offset + n } else front
      let b2 := if 0 < n then s1.queuedAudioBytes - n else s1.queuedAudioBytes
      let q2 := if front2.offset ≥ front2.data.length then rest else front2 :: rest
      { bytes := n, rtype := ItemType.audio, rvalue := front.value,
        state := { s1 with outQ := q2, queuedAudioBytes := b2 },
        deliveredGen := Option.some front.gen }
    else
      { bytes := 0, rtype := front.type, rvalue := front.value,
        state := { s1 with outQ := rest },
        deliveredGen := Option.some front.gen }

/-- sv_read: reject bad arguments; clear and return NONE while cancelled;
drop stale leading items; optionally trim silence; then deliver the front
item through svReadDeliver. -/
def sv_read (s : SV_STATE) (outCap : Int) : ReadResult :=
  if outCap < 0 then
    { bytes := 0, rtype := ItemType.none, rvalue := 0, state := s, deliveredGen := Option.none }
  else
    let curGen := s.currentGen
    if curGen = 0 then
      { bytes := 0, rtype := ItemType.none, rvalue := 0,
        state := clearOutputQueueLocked s, deliveredGen := Option.none }
    else
      let dsl := dropStaleLoop curGen s.outQ s.queuedAudioBytes
      let q0 := dsl.1
      let b0 := dsl.2
      if q0 = [] then
        { bytes := 0, rtype := ItemType.none, rvalue := 0,
          state := { s with outQ := q0, queuedAudioBytes := b0 },
          deliveredGen := Option.none }
      else
        let trimmed :=
          if s.trimSilence ∧ s.formatValid then svReadTrimBlock s curGen q0 b0
          else (q0, b0, s.leadTrimDoneGen, s.tailTrimDoneGen)
        let q1 := trimmed.1
        let b1 := trimmed.2.1
        let leadGen := trimmed.2.2.1
        let tailGen := trimmed.2.2.2
        let s1 := { s with
          outQ := q1
          queuedAudioBytes := b1
          leadTrimDoneGen := leadGen
          tailTrimDoneGen := tailGen }
        svReadDeliver s1 outCap

/- ------------------------------------------------------------
The worker's per-utterance processing (workerLoop body for one SPEAK
command), sequentialized: engine completions and hook writes are driven
by an oracle assigning each chunk its produced audio buffers and its
outcome (normal completion, TTS failure, per-utterance timeout, or an
external stop signal).
------------------------------------------------------------ -/

/-- Availability and behavior of the engine for one utterance. -/
structure EngineEnv where
  fns : FnAvail
  currentVoice : Int
  setLanguageRcOk : Bool
  openVoiceOk : Bool
deriving DecidableEq

/-- Result of the voice/language phase. -/
inductive VoiceOutcome where
  | unchanged
  | changed
  | failed
deriving DecidableEq

/-- workerLoop lines 1166-1184 with setLanguageOnWorker and
openVoiceOnWorker: when the requested voice differs from the open one,
try the language-switch setter if it resolved, falling back to a close
and reopen; an open failure fails the phase.  Returns the outcome, the
resulting current voice and the engine calls made. -/
def voicePhase (env : EngineEnv) (cfg : Settings) : VoiceOutcome × Int × List EngineCall :=
  let wantVoice := cfg.voice.value
  let wantVoice := if wantVoice ≤ 0 then 1 else wantVoice
  if wantVoice = env.currentVoice then (VoiceOutcome.unchanged, env.currentVoice, [])
  else
    if env.fns.setLanguage then
      if env.setLanguageRcOk then
        (VoiceOutcome.changed, wantVoice, [EngineCall.setLanguage wantVoice])
      else if env.openVoiceOk then
        (VoiceOutcome.changed, wantVoice,
          [EngineCall.setLanguage wantVoice, EngineCall.closeSpeech,
           EngineCall.openSpeech wantVoice])
      else
        (VoiceOutcome.failed, wantVoice,
          [EngineCall.setLanguage wantVoice, EngineCall.closeSpeech,
           EngineCall.openSpeech wantVoice])
    else
      if env.openVoiceOk then
        (VoiceOutcome.changed, wantVoice,
          [EngineCall.closeSpeech, EngineCall.openSpeech wantVoice])
      else
        (VoiceOutcome.failed, wantVoice,
          [EngineCall.closeSpeech, EngineCall.openSpeech wantVoice])

/-- How one chunk's engine interaction ends. -/
inductive ChunkOutcome where
  | ok
  | ttsFail
  | timeout
  | stopSig
deriving DecidableEq

/-- The chunk loop of workerLoop (lines 1246-1302): empty chunks are
skipped; a failing TTS call breaks with the error flag; otherwise the
chunk's audio reaches the queue through the hook (enqueueAudioFromHook)
while the worker waits, and the wait ends in completion, a stop, or the
180 s timeout (which pushes ERROR 2002 and stops).  Returns the state,
the engine calls, the stopped flag and the TTS-error flag. -/
def runChunks (gen : Nat) (oracle : Nat → List (List Nat) × ChunkOutcome) :
    List (List Nat) → Nat → SV_STATE → SV_STATE × List EngineCall × Bool × Bool
  | [], _, s => (s, [], false, false)
  | chunk :: rest, idx, s =>
    if chunk = [] then runChunks gen oracle rest (idx + 1) s
    else
      let bufs := (oracle idx).1
      match (oracle idx).2 with
      | ChunkOutcome.ttsFail => (s, [EngineCall.tts chunk], false, true)
      | ChunkOutcome.ok =>
        let s2 := bufs.foldl (fun t b => enqueueAudioFromHook t gen b) s
        let r := runChunks gen oracle rest (idx + 1) s2
        (r.1, EngineCall.tts chunk :: r.2.1, r.2.2.1, r.2.2.2)
      | ChunkOutcome.timeout =>
        let s2 := bufs.foldl (fun t b => enqueueAudioFromHook t gen b) s
        (pushMarker s2 ItemType.error 2002 gen, [EngineCall.tts chunk], true, false)
      | ChunkOutcome.stopSig =>
        let s2 := bufs.foldl (fun t b => enqueueAudioFromHook t gen b) s
        (s2, [EngineCall.tts chunk], true, false)

/-- Everything one SPEAK command produced. -/
structure UtteranceResult where
  state : SV_STATE
  settings : Settings
  currentVoice : Int
  calls : List EngineCall
  gen : Nat
deriving DecidableEq

/-- One full SPEAK command on the worker (workerLoop lines 1146-1341):
allocate the generation and clear the queue, switch the voice, apply the
settings, sanitize and split the text, run the chunks, and finish with
the DONE marker (preceded by an ERROR marker on the failure paths). -/
def runSpeakUtterance (s0 : SV_STATE) (cfg : Settings) (env : EngineEnv)
    (text : List Nat) (oracle : Nat → List (List Nat) × ChunkOutcome) : UtteranceResult :=
  let s1 := (beginUtterance s0).1
  let gen := (beginUtterance s0).2
  let vp := voicePhase env cfg
  let vout := vp.1
  let curVoice := vp.2.1
  let vcalls := vp.2.2
  if vout = VoiceOutcome.failed then
    let s2 := { s1 with activeGen := 0 }
    let s3 := pushMarker (pushMarker s2 ItemType.error 2003 gen) ItemType.done 0 gen
    { state := s3, settings := cfg, currentVoice := curVoice,
      calls := vcalls, gen := gen }
  else
    let voiceChanged := vout = VoiceOutcome.changed
    let pr := applySettingsPhase cfg env.fns voiceChanged
    let scalls := settingsPhaseCalls pr
    let safe := sanitizeForSoftVoiceCp1252 text
    if safe = [] then
      let s2 := { s1 with activeGen := 0 }
      let s3 := pushMarker s2 ItemType.done 0 gen
      { state := s3, settings := pr.settings, currentVoice := curVoice,
        calls := vcalls ++ scalls, gen := gen }
    else
      let chunks := splitSoftVoiceTextIntoChunks safe 350
      if chunks = [] then
        let s2 := { s1 with activeGen := 0 }
        let s3 := pushMarker s2 ItemType.done 0 gen
        { state := s3, settings := pr.settings, currentVoice := curVoice,
          calls := vcalls ++ scalls, gen := gen }
      else
        let rc := runChunks gen oracle chunks 0 s1
        let s2 := rc.1
        let ccalls := rc.2.1
        let stopped := rc.2.2.1
        let ttsError := rc.2.2.2
        if ttsError then
          let s3 := { s2 with activeGen := 0 }
          let s4 := pushMarker (pushMarker s3 ItemType.error 2001 gen)
            ItemType.done 0 gen
          { state := s4, settings := pr.settings, currentVoice := curVoice,
            calls := vcalls ++ scalls ++ ccalls, gen := gen }
        else if stopped then
          let s3 := { s2 with activeGen := 0 }
          let s4 := pushMarker s3 ItemType.done 0 gen
          { state := s4, settings := pr.settings, currentVoice := curVoice,
            calls := vcalls ++ scalls ++ ccalls ++ [EngineCall.abortSpeech],
            gen := gen }
        else
          let s3 := { s2 with activeGen := 0 }
          let s4 := pushMarker s3 ItemType.done 0 gen
          { state := s4, settings := pr.settings, currentVoice := curVoice,
            calls := vcalls ++ scalls ++ ccalls, gen := gen }

/- ------------------------------------------------------------
Event machine over the shared state: everything that can touch the
output queue and the generation gates between a stop and the next
utterance.  The audio and marker events carry an arbitrary generation
argument (the producer sees activeGen, but the adversarial form is
stronger and the enqueue-side checks are what the claims are about).
------------------------------------------------------------ -/

/-- One interleaving step against the shared state. -/
inductive WEvent where
  | stopEv
  | hookAudio (gen : Nat) (data : List Nat)
  | markerEv (t : ItemType) (v : Int) (gen : Nat)
  | readEv (cap : Int)
  | beginUtt
  | gateOff
deriving DecidableEq

/-- Effect of one event on the shared state. -/
def stepEv (s : SV_STATE) : WEvent → SV_STATE
  | WEvent.stopEv => sv_stop s
  | WEvent.hookAudio g d => enqueueAudioFromHook s g d
  | WEvent.markerEv t v g => pushMarker s t v g
  | WEvent.readEv cap => (sv_read s cap).state
  | WEvent.beginUtt => (beginUtterance s).1
  | WEvent.gateOff => { s with activeGen := 0 }

/-- Run a sequence of events. -/
def runEvents (s : SV_STATE) (evs : List WEvent) : SV_STATE :=
  evs.foldl stepEv s

/- ------------------------------------------------------------
Initial values (sv_initW defaults) and the public setters.
------------------------------------------------------------ -/

/-- The settings-store defaults written by sv_initW: numeric knobs are
user-set and dirty (so they apply on the first utterance); personality
and the style knobs are neither. -/
def initialSettings (initialVoice : Int) : Settings :=
  { rate := { value := 260, dirty := true, userSet := true }
    pitch := { value := 89, dirty := true, userSet := true }
    f0Range := { value := 125, dirty := true, userSet := true }
    f0Perturb := { value := 0, dirty := true, userSet := true }
    vowelFactor := { value := 100, dirty := true, userSet := true }
    avBias := { value := 0, dirty := true, userSet := true }
    afBias := { value := 0, dirty := true, userSet := true }
    ahBias := { value := 0, dirty := true, userSet := true }
    personality := { value := 0, dirty := false, userSet := false }
    f0Style := { value := 0, dirty := false, userSet := false }
    voicingMode := { value := 0, dirty := false, userSet := false }
    gender := { value := 0, dirty := false, userSet := false }
    glottalSource := { value := 0, dirty := false, userSet := false }
    speakingMode := { value := 0, dirty := false, userSet := false }
    voice := { value := if initialVoice > 0 then initialVoice else 1,
               dirty := false, userSet := true } }

/-- The queue-side state right after init on the worker (worker start:
bytesPerSec defaults to 22050 and the buffer limits are computed;
generation counters start at 1 and 0 as in the SV_STATE initializers). -/
def initState : SV_STATE :=
  { cancelToken := 1
    genCounter := 1
    activeGen := 0
    currentGen := 0
    outQ := []
    queuedAudioBytes := 0
    maxBufferedBytes := computeBufferLimits 22050
    maxQueueItems := 8192
    bytesPerSec := 22050
    trimSilence := true
    pauseFactor := 50
    leadTrimDoneGen := 0
    tailTrimDoneGen := 0
    formatValid := false
    lastFormat := { formatTag := 0, channels := 0, samplesPerSec := 0,
                    avgBytesPerSec := 0, blockAlign := 0, bitsPerSample := 0 }
    cmdQ := [] }

/-- sv_setRate. -/
def sv_setRate (cfg : Settings) (v : Int) : Settings :=
  { cfg with rate := setSetting cfg.rate v true }

/-- sv_setPitch. -/
def sv_setPitch (cfg : Settings) (v : Int) : Settings :=
  { cfg with pitch := setSetting cfg.pitch v true }

/-- sv_setPersonality. -/
def sv_setPersonality (cfg : Settings) (v : Int) : Settings :=
  { cfg with personality := setSetting cfg.personality v true }

/-- sv_setF0Style. -/
def sv_setF0Style (cfg : Settings) (v : Int) : Settings :=
  { cfg with f0Style := setSetting cfg.f0Style v true }

/-- sv_setVoice. -/
def sv_setVoice (cfg : Settings) (v : Int) : Settings :=
  { cfg with voice := setSetting cfg.voice v true }

/-- sv_setPauseFactor: clamp into [0, 100] and store. -/
def sv_setPauseFactor (pauseFactor : Int) : Int :=
  let f := if pauseFactor < 0 then 0 else pauseFactor
  if f > 100 then 100 else f

/-- All engine setters resolved (the normal case for a complete engine
install). -/
def allFns : FnAvail :=
  { personality := true, f0Style := true, voicingMode := true, gender := true,
    glottalSource := true, speakingMode := true, setLanguage := true }

/-- An engine environment whose current voice is 1 and where every call
succeeds. -/
def allEnv : EngineEnv :=
  { fns := allFns, currentVoice := 1, setLanguageRcOk := true, openVoiceOk := true }

/-- The DONE marker pushMarker builds. -/
def doneItem (gen : Nat) : StreamItem :=
  { type := ItemType.done, value := 0, gen := gen, data := [], offset := 0 }

/-- The ERROR marker pushMarker builds. -/
def errorItem (v : Int) (gen : Nat) : StreamItem :=
  { type := ItemType.error, value := v, gen := gen, data := [], offset := 0 }

/- ------------------------------------------------------------
C9: speaking-mode auto-tune of max-lead-ms.
------------------------------------------------------------ -/

/-- C9.  For every call to the speaking-mode setter with a valid mode
(0 natural, 1 word-at-a-time, 2 spelled): a non-natural mode reduces
max-lead-ms to 250 while the auto-tune is active; the natural mode
restores the 2000 ms default; once the consumer has pinned max-lead-ms
through its setter the auto-tune is disabled and the speaking-mode setter
never changes the lead again. -/
theorem speakingMode_autoLead_c9 (s : LeadCfg) (v : Int)
    (hv : v = 0 ∨ v = 1 ∨ v = 2) :
    (v ≠ 0 → s.autoLead = true → (sv_setSpeakingMode s v).maxLeadMs = 250)
    ∧ (v = 0 → s.autoLead = true → (sv_setSpeakingMode s v).maxLeadMs = 2000)
    ∧ (s.autoLead = false → (sv_setSpeakingMode s v).maxLeadMs = s.maxLeadMs)
    ∧ (∀ w, (sv_setMaxLeadMs s w).autoLead = false)
    ∧ (∀ w u, (sv_setSpeakingMode (sv_setMaxLeadMs s w) u).maxLeadMs
        = (sv_setMaxLeadMs s w).maxLeadMs) := by
  refine ⟨?_, ?_, ?_, ?_, ?_⟩
  · intro hne ha
    rcases hv with h0 | h1 | h2
    · exact absurd h0 hne
    · simp [sv_setSpeakingMode, ha, h1]
    · simp [sv_setSpeakingMode, ha, h2]
  · intro h0 ha
    subst h0
    simp [sv_setSpeakingMode, ha]
  · intro ha
    simp [sv_setSpeakingMode, ha]
  · intro w
    simp [sv_setMaxLeadMs]
  · intro w u
    simp [sv_setSpeakingMode, sv_setMaxLeadMs]

/-- Witness for C9 at a concrete state: switching to word-at-a-time mode
from the defaults reduces the lead to 250. -/
theorem speakingMode_autoLead_c9_witness :
    (sv_setSpeakingMode
      { speakingMode := { value := 0, dirty := false, userSet := false },
        maxLeadMs := 2000, autoLead := true } 1).maxLeadMs = 250 :=
  (speakingMode_autoLead_c9
    { speakingMode := { value := 0, dirty := false, userSet := false },
      maxLeadMs := 2000, autoLead := true } 1
    (Or.inr (Or.inl rfl))).1 (by decide) rfl

/- ------------------------------------------------------------
C8: the sanitation pipeline.
------------------------------------------------------------ -/

/-- The per-character conversion the sanitizer actually performs, stated
per the amended reading of the spec: the CP1252 image when the character
maps and that image is not the question mark, and a space otherwise. -/
def sanitizeCharImage (c : Nat) : Nat :=
  match cp1252Encode c with
  | Option.some b => if b = 63 then 32 else b
  | Option.none => 32

/-- C8 counterexample.  The question mark maps into CP1252 (to itself),
yet sanitizing "a?b" yields "a b": a character that maps into the code
page is not preserved, contradicting the claim that exactly the unmapped
characters become space. -/
theorem sanitize_preserves_mapped_cex :
    cp1252Encode 63 = Option.some 63
    ∧ sanitizeForSoftVoiceCp1252 [97, 63, 98] = [97, 32, 98]
    ∧ ¬ (63 ∈ sanitizeForSoftVoiceCp1252 [97, 63, 98]) := by
  refine ⟨rfl, by decide, by decide⟩

/-- C8 amended.  The engine text is the wide cleanup (controls and NBSP
to space, whitespace collapsed, trimmed) converted per character so that
exactly the unmapped characters AND the question mark become space,
followed by the final collapse-and-trim; every character whose CP1252
image is not the question mark is preserved by the conversion step. -/
theorem sanitize_amended_c8 (inp : List Nat) :
    sanitizeForSoftVoiceCp1252 inp
      = dropTrailingSpaces (collapseSpaces ((cleanupWide inp).map sanitizeCharImage) true)
    ∧ (∀ c b, cp1252Encode c = Option.some b → b ≠ 63 → sanitizeCharImage c = b)
    ∧ (∀ c, cp1252Encode c = Option.none → sanitizeCharImage c = 32) := by
  refine ⟨?_, ?_, ?_⟩
  · unfold sanitizeForSoftVoiceCp1252
    by_cases h : cleanupWide inp = []
    · simp [h, collapseSpaces, dropTrailingSpaces]
    · simp only [if_neg h, List.map_map]
      have hfun : ((fun c => if c = 63 then 32 else c) ∘ cp1252ByteOrSpace) = sanitizeCharImage := by
        funext c
        simp only [Function.comp_apply, sanitizeCharImage, cp1252ByteOrSpace]
        cases cp1252Encode c with
        | none => rfl
        | some b => rfl
      rw [hfun]
  · intro c b hb hne
    simp [sanitizeCharImage, hb, hne]
  · intro c hc
    simp [sanitizeCharImage, hc]

/-- Witness for the amended C8: at a concrete mapped character (the euro
sign, CP1252 byte 0x80) the conversion step preserves the image. -/
theorem sanitize_amended_c8_witness :
    sanitizeCharImage 0x20AC = 0x80 :=
  (sanitize_amended_c8 []).2.1 0x20AC 0x80 (by decide) (by decide)

/- ------------------------------------------------------------
C5: chunk splitting.
------------------------------------------------------------ -/

/-- A found space index lies inside the searched list. -/
theorem firstSpaceIdx_lt_length {l : List Nat} {i : Nat}
    (h : firstSpaceIdx l = Option.some i) : i < l.length := by
  induction l generalizing i with
  | nil => simp [firstSpaceIdx] at h
  | cons c rest ih =>
    by_cases hc : c = 32
    · simp [firstSpaceIdx, hc] at h
      simp [← h]
    · simp only [firstSpaceIdx, if_neg hc] at h
      cases hrec : firstSpaceIdx rest with
      | none => rw [hrec] at h; exact absurd h (by simp)
      | some j =>
        rw [hrec] at h
        simp only [Option.some.injEq] at h
        have := ih hrec
        simp [← h]
        omega

/-- Everything before a found space index is a non-space byte. -/
theorem firstSpaceIdx_before {l : List Nat} {i : Nat}
    (h : firstSpaceIdx l = Option.some i) :
    ∀ j, j < i → l.getD j 0 ≠ 32 := by
  induction l generalizing i with
  | nil => simp [firstSpaceIdx] at h
  | cons c rest ih =>
    by_cases hc : c = 32
    · simp [firstSpaceIdx, hc] at h
      intro j hj
      omega
    · simp only [firstSpaceIdx, if_neg hc] at h
      cases hrec : firstSpaceIdx rest with
      | none => rw [hrec] at h; exact absurd h (by simp)
      | some k =>
        rw [hrec] at h
        simp only [Option.some.injEq] at h
        intro j hj
        cases j with
        | zero => simpa [List.getD] using hc
        | succ j2 =>
          have hj2 : j2 < k := by omega
          simpa [List.getD] using ih hrec j2 hj2

/-- Getting inside the taken prefix reads the original list. -/
theorem getD_take_of_lt (l : List Nat) (n i : Nat) (h : i < n) :
    (l.take n).getD i 0 = l.getD i 0 := by
  rw [List.getD_eq_getElem?_getD, List.getD_eq_getElem?_getD, List.getElem?_take]
  simp [h]

/-- Getting inside a dropped suffix reads the original list at the
shifted index. -/
theorem getD_drop (l : List Nat) (n i : Nat) :
    (l.drop n).getD i 0 = l.getD (n + i) 0 := by
  rw [List.getD_eq_getElem?_getD, List.getD_eq_getElem?_getD, List.getElem?_drop]

/-- Per-chunk shape produced by the splitting loop: every chunk is
nonempty, and a chunk extends beyond the chunkChars boundary only
through non-space bytes (it ends right before the first space at or
after the boundary). -/
theorem splitChunksLoop_shape (chunkChars : Nat) :
    ∀ fuel rest, ∀ c ∈ splitChunksLoop chunkChars fuel rest,
      c ≠ [] ∧ ∀ i, chunkChars ≤ i → i < c.length → c.getD i 0 ≠ 32 := by
  intro fuel
  induction fuel with
  | zero =>
    intro rest c hmem
    simp [splitChunksLoop] at hmem
  | succ fuel ih =>
    intro rest c hmem
    rw [splitChunksLoop] at hmem
    by_cases hnil : rest = []
    · rw [if_pos hnil] at hmem
      simp at hmem
    · rw [if_neg hnil] at hmem
      by_cases hlen : rest.length ≤ chunkChars
      · rw [if_pos hlen] at hmem
        simp only [List.mem_singleton] at hmem
        subst hmem
        refine ⟨hnil, ?_⟩
        intro i hi hlt
        omega
      · rw [if_neg hlen] at hmem
        rcases List.mem_append.1 hmem with hp | hr
        · -- the piece taken in this iteration
          cases hsp : firstSpaceIdx (rest.drop chunkChars) with
          | none =>
            simp only [splitPoint, hsp] at hp
            by_cases h0 : 0 < chunkChars
            · rw [if_pos h0] at hp
              simp only [List.mem_singleton] at hp
              subst hp
              refine ⟨?_, ?_⟩
              · intro hempty
                have hl : (rest.take chunkChars).length = 0 := by rw [hempty]; rfl
                rw [List.length_take] at hl
                omega
              · intro i hi hlt
                rw [List.length_take] at hlt
                omega
            · rw [if_neg h0] at hp
              simp at hp
          | some i0 =>
            simp only [splitPoint, hsp] at hp
            by_cases h0 : 0 < chunkChars + i0
            · rw [if_pos h0] at hp
              simp only [List.mem_singleton] at hp
              subst hp
              have hi0 : i0 < (rest.drop chunkChars).length := firstSpaceIdx_lt_length hsp
              rw [List.length_drop] at hi0
              have hsplit : chunkChars + i0 < rest.length := by omega
              refine ⟨?_, ?_⟩
              · intro hempty
                have hl : (rest.take (chunkChars + i0)).length = 0 := by rw [hempty]; rfl
                rw [List.length_take] at hl
                omega
              · intro i hi hlt
                rw [List.length_take] at hlt
                have hilt : i < chunkChars + i0 := by omega
                rw [getD_take_of_lt _ _ _ hilt]
                have hsub : i - chunkChars < i0 := by omega
                have hrd := firstSpaceIdx_before hsp (i - chunkChars) hsub
                rw [getD_drop] at hrd
                have hadd : chunkChars + (i - chunkChars) = i := by omega
                rw [hadd] at hrd
                exact hrd
            · rw [if_neg h0] at hp
              simp at hp
        · exact ih _ c hr

/-- C5 amended.  Chunks are split at the first space at or after the
350-byte boundary — so a chunk may exceed 350 bytes, extending only
through non-space bytes up to that space — with a hard split at exactly
350 bytes when no such space exists; chunks are never empty and the
worker never sends an empty chunk to the engine. -/
theorem splitChunks_amended_c5 :
    (∀ text : List Nat, ∀ c ∈ splitSoftVoiceTextIntoChunks text 350,
      c ≠ [] ∧ ∀ i, 350 ≤ i → i < c.length → c.getD i 0 ≠ 32)
    ∧ (∀ gen oracle chunks idx s,
        EngineCall.tts [] ∉ (runChunks gen oracle chunks idx s).2.1) := by
  constructor
  · intro text c hmem
    unfold splitSoftVoiceTextIntoChunks at hmem
    by_cases hg : text = [] ∨ (350 : Nat) = 0
    · rw [if_pos hg] at hmem
      simp at hmem
    · rw [if_neg hg] at hmem
      exact splitChunksLoop_shape 350 text.length text c hmem
  · intro gen oracle chunks
    induction chunks with
    | nil => intro idx s; simp [runChunks]
    | cons chunk rest ih =>
      intro idx s
      rw [runChunks]
      by_cases hch : chunk = []
      · rw [if_pos hch]
        exact ih (idx + 1) s
      · rw [if_neg hch]
        cases houtc : (oracle idx).2 with
        | ttsFail =>
          cases horacle : oracle idx with
          | mk bufs outcome =>
            rw [horacle] at houtc
            simp at houtc
            subst houtc
            simp [hch]
        | ok =>
          cases horacle : oracle idx with
          | mk bufs outcome =>
            rw [horacle] at houtc
            simp at houtc
            subst houtc
            simp only
            intro hmem
            rcases List.mem_cons.1 hmem with he | hm
            · exact hch (by injection he.symm)
            · have := ih (idx + 1)
                ((bufs.foldl (fun t b => enqueueAudioFromHook t gen b) s))
              exact this hm
        | timeout =>
          cases horacle : oracle idx with
          | mk bufs outcome =>
            rw [horacle] at houtc
            simp at houtc
            subst houtc
            simp [hch]
        | stopSig =>
          cases horacle : oracle idx with
          | mk bufs outcome =>
            rw [horacle] at houtc
            simp at houtc
            subst houtc
            simp [hch]

set_option maxRecDepth 80000 in
/-- Witness for the amended C5 at a concrete text: a 360-byte word
followed by a space splits into a 360-byte chunk whose bytes past the
boundary are non-space. -/
theorem splitChunks_amended_c5_witness :
    ((List.replicate 360 97 : List Nat) ≠ []
      ∧ ∀ i, 350 ≤ i → i < (List.replicate 360 97 : List Nat).length →
          (List.replicate 360 97 : List Nat).getD i 0 ≠ 32) :=
  splitChunks_amended_c5.1 (List.replicate 360 97 ++ [32, 98])
    (List.replicate 360 97) (by decide)

set_option maxRecDepth 80000 in
/-- C5 counterexample.  The 362-byte text of 360 letters, a space and a
letter splits into a first chunk of 360 bytes: chunks are not bounded by
350 bytes, because the split point is the first space at or after the
boundary. -/
theorem splitChunks_bound_cex :
    ∃ c ∈ splitSoftVoiceTextIntoChunks (List.replicate 360 97 ++ [32, 98]) 350,
      350 < c.length := by
  refine ⟨List.replicate 360 97, by decide, by decide⟩

/- ------------------------------------------------------------
C4: the settings-application order around personality presets.
------------------------------------------------------------ -/

/-- C4 counterexample.  Right after init (rate is dirty) with personality
set to 5: the personality is applied with a non-zero value, the timbre
dirty flags are discarded, but the generic numeric apply pass is NOT
skipped — it emits a rate call (rate's dirty flag is deliberately not
discarded), so rate reaches the engine twice. -/
theorem applySettingsPhase_skip_cex :
    (applySettingsPhase (sv_setPersonality (initialSettings 1) 5) allFns false).personalityApplied
      = true
    ∧ (sv_setPersonality (initialSettings 1) 5).personality.value ≠ 0
    ∧ (applySettingsPhase (sv_setPersonality (initialSettings 1) 5) allFns false).numericCalls ≠ []
    ∧ settingsPhaseCalls (applySettingsPhase (sv_setPersonality (initialSettings 1) 5) allFns false)
      = [EngineCall.setPersonality 5, EngineCall.setRate 260, EngineCall.setRate 260] := by
  decide

/-- C4 amended.  When a non-zero personality was just applied, the worker
discards the dirty flags of all timbre knobs except rate, the generic
numeric pass then emits at most a rate call (exactly when rate was
dirty), and rate is re-applied unconditionally afterwards.  Otherwise no
extra rate re-apply happens.  The numeric pass is forced exactly when the
voice changed with no non-zero personality active, or the personality was
just applied with value zero; a forced pass sends all eight numeric knobs
with their current values. -/
theorem applySettingsPhase_c4_amended (cfg : Settings) (fns : FnAvail) (voiceChanged : Bool) :
    ((applySettingsPhase cfg fns voiceChanged).personalityApplied = true →
      cfg.personality.value ≠ 0 →
      ((applySettingsPhase cfg fns voiceChanged).settings.pitch.dirty = false
        ∧ (applySettingsPhase cfg fns voiceChanged).settings.f0Range.dirty = false
        ∧ (applySettingsPhase cfg fns voiceChanged).settings.f0Perturb.dirty = false
        ∧ (applySettingsPhase cfg fns voiceChanged).settings.vowelFactor.dirty = false
        ∧ (applySettingsPhase cfg fns voiceChanged).settings.avBias.dirty = false
        ∧ (applySettingsPhase cfg fns voiceChanged).settings.afBias.dirty = false
        ∧ (applySettingsPhase cfg fns voiceChanged).settings.ahBias.dirty = false)
      ∧ (applySettingsPhase cfg fns voiceChanged).numericCalls
          = (if cfg.rate.dirty then [EngineCall.setRate cfg.rate.value] else [])
      ∧ (applySettingsPhase cfg fns voiceChanged).rateCalls
          = [EngineCall.setRate cfg.rate.value])
    ∧ ((applySettingsPhase cfg fns voiceChanged).forcedNumeric = true ↔
        ((voiceChanged = true ∧ ¬(cfg.personality.userSet = true ∧ cfg.personality.value ≠ 0))
          ∨ ((applySettingsPhase cfg fns voiceChanged).personalityApplied = true
              ∧ cfg.personality.value = 0)))
    ∧ ((applySettingsPhase cfg fns voiceChanged).forcedNumeric = true →
        (applySettingsPhase cfg fns voiceChanged).numericCalls
          = [EngineCall.setRate cfg.rate.value, EngineCall.setPitch cfg.pitch.value,
             EngineCall.setF0Range cfg.f0Range.value,
             EngineCall.setF0Perturb cfg.f0Perturb.value,
             EngineCall.setVowelFactor cfg.vowelFactor.value,
             EngineCall.setAVBias cfg.avBias.value,
             EngineCall.setAFBias cfg.afBias.value,
             EngineCall.setAHBias cfg.ahBias.value])
    ∧ (¬((applySettingsPhase cfg fns voiceChanged).personalityApplied = true
          ∧ cfg.personality.value ≠ 0) →
        (applySettingsPhase cfg fns voiceChanged).rateCalls = []) := by
  rcases cfg with ⟨⟨rv, rd, ru⟩, pitch, f0r, f0p, vf, av, af, ah, ⟨pv, pd, pu⟩,
    f0s, vm, ge, gs, sm, vo⟩
  rcases fns with ⟨fp, ff, fv, fg, fgl, fs, fl⟩
  cases fp <;> cases pu <;> cases voiceChanged <;> cases pd <;> cases rd <;>
    by_cases hz : pv = 0 <;>
      simp [applySettingsPhase, applyPersonalityOnWorker, applyNumericSettingsOnWorker,
        applyNumericOne, discardTimbreDirtyOnWorker, applyStyleSettingOnWorker, hz]

/-- Witness for the amended C4 at the counterexample state: projecting
the first branch. -/
theorem applySettingsPhase_c4_amended_witness :
    ((applySettingsPhase (sv_setPersonality (initialSettings 1) 5) allFns false).settings.pitch.dirty
        = false
      ∧ (applySettingsPhase (sv_setPersonality (initialSettings 1) 5) allFns false).settings.f0Range.dirty
        = false
      ∧ (applySettingsPhase (sv_setPersonality (initialSettings 1) 5) allFns false).settings.f0Perturb.dirty
        = false
      ∧ (applySettingsPhase (sv_setPersonality (initialSettings 1) 5) allFns false).settings.vowelFactor.dirty
        = false
      ∧ (applySettingsPhase (sv_setPersonality (initialSettings 1) 5) allFns false).settings.avBias.dirty
        = false
      ∧ (applySettingsPhase (sv_setPersonality (initialSettings 1) 5) allFns false).settings.afBias.dirty
        = false
      ∧ (applySettingsPhase (sv_setPersonality (initialSettings 1) 5) allFns false).settings.ahBias.dirty
        = false)
    ∧ (applySettingsPhase (sv_setPersonality (initialSettings 1) 5) allFns false).numericCalls
        = (if (sv_setPersonality (initialSettings 1) 5).rate.dirty
            then [EngineCall.setRate (sv_setPersonality (initialSettings 1) 5).rate.value] else [])
    ∧ (applySettingsPhase (sv_setPersonality (initialSettings 1) 5) allFns false).rateCalls
        = [EngineCall.setRate (sv_setPersonality (initialSettings 1) 5).rate.value] :=
  (applySettingsPhase_c4_amended (sv_setPersonality (initialSettings 1) 5) allFns false).1
    (by decide) (by decide)

/- ------------------------------------------------------------
C3: user-set gating of the optional engine setters.
------------------------------------------------------------ -/

/-- Calls of one numeric apply are built by its own constructor. -/
theorem applyNumericOne_calls (st : SettingInt) (force : Bool) (mk : Int → EngineCall) :
    ∀ c ∈ (applyNumericOne st force mk).2, ∃ v, c = mk v := by
  intro c hc
  unfold applyNumericOne at hc
  split_ifs at hc <;> simp only [List.mem_singleton, List.not_mem_nil] at hc
  · exact ⟨st.value, hc⟩
  · exact ⟨st.value, hc⟩

/-- Calls of one style apply are built by its own constructor, and only
happen when the knob is user-set. -/
theorem applyStyleSettingOnWorker_calls (hasFn : Bool) (st : SettingInt) (force : Bool)
    (mk : Int → EngineCall) :
    ∀ c ∈ (applyStyleSettingOnWorker hasFn st force mk).2,
      st.userSet = true ∧ ∃ v, c = mk v := by
  intro c hc
  unfold applyStyleSettingOnWorker at hc
  split_ifs at hc with h1 h2 h3 h4 <;>
    simp only [List.mem_singleton, List.not_mem_nil] at hc
  · exact ⟨Bool.not_eq_false st.userSet ▸ h2, st.value, hc⟩
  · exact ⟨Bool.not_eq_false st.userSet ▸ h2, st.value, hc⟩

/-- Personality calls are setPersonality calls and only happen when the
knob is user-set. -/
theorem applyPersonalityOnWorker_calls (hasFn : Bool) (st : SettingInt) (force : Bool) :
    ∀ c ∈ (applyPersonalityOnWorker hasFn st force).2.1,
      st.userSet = true ∧ ∃ v, c = EngineCall.setPersonality v := by
  intro c hc
  unfold applyPersonalityOnWorker at hc
  split_ifs at hc with h1 h2 h3 h4 <;>
    simp only [List.mem_singleton, List.not_mem_nil] at hc
  · exact ⟨Bool.not_eq_false st.userSet ▸ h2, st.value, hc⟩
  · exact ⟨Bool.not_eq_false st.userSet ▸ h2, st.value, hc⟩

/-- The numeric pass emits only the eight numeric setters. -/
theorem applyNumericSettingsOnWorker_calls (cfg : Settings) (force : Bool) :
    ∀ c ∈ (applyNumericSettingsOnWorker cfg force).2,
      (∃ v, c = EngineCall.setRate v) ∨ (∃ v, c = EngineCall.setPitch v)
      ∨ (∃ v, c = EngineCall.setF0Range v) ∨ (∃ v, c = EngineCall.setF0Perturb v)
      ∨ (∃ v, c = EngineCall.setVowelFactor v) ∨ (∃ v, c = EngineCall.setAVBias v)
      ∨ (∃ v, c = EngineCall.setAFBias v) ∨ (∃ v, c = EngineCall.setAHBias v) := by
  intro c hc
  unfold applyNumericSettingsOnWorker at hc
  simp only [List.mem_append] at hc
  rcases hc with ((((((h | h) | h) | h) | h) | h) | h) | h
  · exact Or.inl (applyNumericOne_calls _ _ _ c h)
  · exact Or.inr (Or.inl (applyNumericOne_calls _ _ _ c h))
  · exact Or.inr (Or.inr (Or.inl (applyNumericOne_calls _ _ _ c h)))
  · exact Or.inr (Or.inr (Or.inr (Or.inl (applyNumericOne_calls _ _ _ c h))))
  · exact Or.inr (Or.inr (Or.inr (Or.inr (Or.inl (applyNumericOne_calls _ _ _ c h)))))
  · exact Or.inr (Or.inr (Or.inr (Or.inr (Or.inr (Or.inl
      (applyNumericOne_calls _ _ _ c h))))))
  · exact Or.inr (Or.inr (Or.inr (Or.inr (Or.inr (Or.inr (Or.inl
      (applyNumericOne_calls _ _ _ c h)))))))
  · exact Or.inr (Or.inr (Or.inr (Or.inr (Or.inr (Or.inr (Or.inr
      (applyNumericOne_calls _ _ _ c h)))))))

/-- The voice phase emits only language-switch, close and open calls. -/
theorem voicePhase_calls (env : EngineEnv) (cfg : Settings) :
    ∀ c ∈ (voicePhase env cfg).2.2,
      (∃ v, c = EngineCall.setLanguage v) ∨ c = EngineCall.closeSpeech
        ∨ (∃ v, c = EngineCall.openSpeech v) := by
  intro c hc
  unfold voicePhase at hc
  split_ifs at hc <;>
    simp only [List.mem_cons, List.mem_singleton, List.not_mem_nil, or_false] at hc <;>
    aesop

/-- The chunk loop emits only TTS calls. -/
theorem runChunks_calls (gen : Nat) (oracle : Nat → List (List Nat) × ChunkOutcome) :
    ∀ chunks idx s, ∀ c ∈ (runChunks gen oracle chunks idx s).2.1,
      ∃ ch, c = EngineCall.tts ch := by
  intro chunks
  induction chunks with
  | nil =>
    intro idx s c hc
    simp [runChunks] at hc
  | cons chunk rest ih =>
    intro idx s c hc
    rw [runChunks] at hc
    by_cases hch : chunk = []
    · rw [if_pos hch] at hc
      exact ih _ _ c hc
    · rw [if_neg hch] at hc
      cases ho : (oracle idx).2 <;> rw [ho] at hc <;>
        simp only [List.mem_singleton, List.mem_cons, List.not_mem_nil, or_false] at hc
      · rcases hc with rfl | hm
        · exact ⟨chunk, rfl⟩
        · exact ih _ _ c hm
      · exact ⟨chunk, hc⟩
      · exact ⟨chunk, hc⟩
      · exact ⟨chunk, hc⟩

/-- applyPersonalityOnWorker changes neither the stored value nor the
user-set flag. -/
theorem applyPersonalityOnWorker_value (hasFn : Bool) (st : SettingInt) (force : Bool) :
    (applyPersonalityOnWorker hasFn st force).1.value = st.value
    ∧ (applyPersonalityOnWorker hasFn st force).1.userSet = st.userSet := by
  unfold applyPersonalityOnWorker
  split_ifs <;> exact ⟨rfl, rfl⟩

/-- The numeric pass does not touch the style knobs. -/
theorem numericPass_style_fields (cfg2 : Settings) (force : Bool) :
    (applyNumericSettingsOnWorker cfg2 force).1.f0Style = cfg2.f0Style
    ∧ (applyNumericSettingsOnWorker cfg2 force).1.voicingMode = cfg2.voicingMode
    ∧ (applyNumericSettingsOnWorker cfg2 force).1.gender = cfg2.gender
    ∧ (applyNumericSettingsOnWorker cfg2 force).1.glottalSource = cfg2.glottalSource
    ∧ (applyNumericSettingsOnWorker cfg2 force).1.speakingMode = cfg2.speakingMode :=
  ⟨rfl, rfl, rfl, rfl, rfl⟩

/-- The timbre discard does not touch the style knobs (through the if of
the worker's personality branch). -/
theorem ite_discard_style_fields (cond : Bool) (cfg1 : Settings) :
    ((if cond = true then discardTimbreDirtyOnWorker cfg1 else cfg1).f0Style = cfg1.f0Style)
    ∧ ((if cond = true then discardTimbreDirtyOnWorker cfg1 else cfg1).voicingMode
        = cfg1.voicingMode)
    ∧ ((if cond = true then discardTimbreDirtyOnWorker cfg1 else cfg1).gender = cfg1.gender)
    ∧ ((if cond = true then discardTimbreDirtyOnWorker cfg1 else cfg1).glottalSource
        = cfg1.glottalSource)
    ∧ ((if cond = true then discardTimbreDirtyOnWorker cfg1 else cfg1).speakingMode
        = cfg1.speakingMode) := by
  cases cond <;> exact ⟨rfl, rfl, rfl, rfl, rfl⟩

/-- Bound on the calls of the settings phase: every call is one of the
numeric setters, or an optional setter whose knob is user-set. -/
theorem settingsPhaseCalls_bound (cfg : Settings) (fns : FnAvail) (voiceChanged : Bool)
    (P : EngineCall → Prop)
    (hRate : ∀ v, P (EngineCall.setRate v))
    (hPitch : ∀ v, P (EngineCall.setPitch v))
    (hF0Range : ∀ v, P (EngineCall.setF0Range v))
    (hF0Perturb : ∀ v, P (EngineCall.setF0Perturb v))
    (hVowel : ∀ v, P (EngineCall.setVowelFactor v))
    (hAV : ∀ v, P (EngineCall.setAVBias v))
    (hAF : ∀ v, P (EngineCall.setAFBias v))
    (hAH : ∀ v, P (EngineCall.setAHBias v))
    (hPers : cfg.personality.userSet = true → ∀ v, P (EngineCall.setPersonality v))
    (hF0Style : cfg.f0Style.userSet = true → ∀ v, P (EngineCall.setF0Style v))
    (hVoicingMode : cfg.voicingMode.userSet = true → ∀ v, P (EngineCall.setVoicingMode v))
    (hGender : cfg.gender.userSet = true → ∀ v, P (EngineCall.setGender v))
    (hGlottal : cfg.glottalSource.userSet = true → ∀ v, P (EngineCall.setGlottalSource v))
    (hSpeaking : cfg.speakingMode.userSet = true → ∀ v, P (EngineCall.setSpeakingMode v)) :
    ∀ c ∈ settingsPhaseCalls (applySettingsPhase cfg fns voiceChanged), P c := by
  have hnum : ∀ cfg2 force, ∀ c ∈ (applyNumericSettingsOnWorker cfg2 force).2, P c := by
    intro cfg2 force c hc
    rcases applyNumericSettingsOnWorker_calls cfg2 force c hc with
      ⟨v, rfl⟩ | ⟨v, rfl⟩ | ⟨v, rfl⟩ | ⟨v, rfl⟩ | ⟨v, rfl⟩ | ⟨v, rfl⟩ | ⟨v, rfl⟩ | ⟨v, rfl⟩
    · exact hRate v
    · exact hPitch v
    · exact hF0Range v
    · exact hF0Perturb v
    · exact hVowel v
    · exact hAV v
    · exact hAF v
    · exact hAH v
  intro c hc
  simp only [settingsPhaseCalls, applySettingsPhase, List.mem_append] at hc
  rcases hc with ((hp | hn) | hr) | ((((h1 | h2) | h3) | h4) | h5)
  · rcases applyPersonalityOnWorker_calls _ _ _ c hp with ⟨hu, v, rfl⟩
    exact hPers hu v
  · exact hnum _ _ c hn
  · rcases hb : ((applyPersonalityOnWorker fns.personality cfg.personality voiceChanged).2.2
        && decide ((applyPersonalityOnWorker fns.personality cfg.personality
          voiceChanged).1.value ≠ 0)) with _ | _
    · rw [hb] at hr
      simp at hr
    · rw [hb] at hr
      simp only [if_true, List.mem_singleton] at hr
      subst hr
      exact hRate _
  · rcases applyStyleSettingOnWorker_calls _ _ _ _ c h1 with ⟨hu, v, rfl⟩
    rw [(numericPass_style_fields _ _).1, (ite_discard_style_fields _ _).1] at hu
    exact hF0Style hu v
  · rcases applyStyleSettingOnWorker_calls _ _ _ _ c h2 with ⟨hu, v, rfl⟩
    rw [(numericPass_style_fields _ _).2.1, (ite_discard_style_fields _ _).2.1] at hu
    exact hVoicingMode hu v
  · rcases applyStyleSettingOnWorker_calls _ _ _ _ c h3 with ⟨hu, v, rfl⟩
    rw [(numericPass_style_fields _ _).2.2.1, (ite_discard_style_fields _ _).2.2.1] at hu
    exact hGender hu v
  · rcases applyStyleSettingOnWorker_calls _ _ _ _ c h4 with ⟨hu, v, rfl⟩
    rw [(numericPass_style_fields _ _).2.2.2.1, (ite_discard_style_fields _ _).2.2.2.1] at hu
    exact hGlottal hu v
  · rcases applyStyleSettingOnWorker_calls _ _ _ _ c h5 with ⟨hu, v, rfl⟩
    rw [(numericPass_style_fields _ _).2.2.2.2, (ite_discard_style_fields _ _).2.2.2.2] at hu
    exact hSpeaking hu v

/-- Master bound on the engine calls of one utterance: given that every
call kind the worker can make satisfies P — where the optional
personality and style setters need P only when their knob is user-set —
every emitted call satisfies P. -/
theorem runSpeakUtterance_calls_bound (s0 : SV_STATE) (cfg : Settings) (env : EngineEnv)
    (text : List Nat) (oracle : Nat → List (List Nat) × ChunkOutcome)
    (P : EngineCall → Prop)
    (hLang : ∀ v, P (EngineCall.setLanguage v))
    (hClose : P EngineCall.closeSpeech)
    (hOpen : ∀ v, P (EngineCall.openSpeech v))
    (hAbort : P EngineCall.abortSpeech)
    (hTts : ∀ ch, P (EngineCall.tts ch))
    (hRate : ∀ v, P (EngineCall.setRate v))
    (hPitch : ∀ v, P (EngineCall.setPitch v))
    (hF0Range : ∀ v, P (EngineCall.setF0Range v))
    (hF0Perturb : ∀ v, P (EngineCall.setF0Perturb v))
    (hVowel : ∀ v, P (EngineCall.setVowelFactor v))
    (hAV : ∀ v, P (EngineCall.setAVBias v))
    (hAF : ∀ v, P (EngineCall.setAFBias v))
    (hAH : ∀ v, P (EngineCall.setAHBias v))
    (hPers : cfg.personality.userSet = true → ∀ v, P (EngineCall.setPersonality v))
    (hF0Style : cfg.f0Style.userSet = true → ∀ v, P (EngineCall.setF0Style v))
    (hVoicingMode : cfg.voicingMode.userSet = true → ∀ v, P (EngineCall.setVoicingMode v))
    (hGender : cfg.gender.userSet = true → ∀ v, P (EngineCall.setGender v))
    (hGlottal : cfg.glottalSource.userSet = true → ∀ v, P (EngineCall.setGlottalSource v))
    (hSpeaking : cfg.speakingMode.userSet = true → ∀ v, P (EngineCall.setSpeakingMode v)) :
    ∀ c ∈ (runSpeakUtterance s0 cfg env text oracle).calls, P c := by
  have hvc : ∀ c ∈ (voicePhase env cfg).2.2, P c := by
    intro c hc
    rcases voicePhase_calls env cfg c hc with ⟨v, rfl⟩ | rfl | ⟨v, rfl⟩
    · exact hLang v
    · exact hClose
    · exact hOpen v
  have hsc : ∀ vc : Bool, ∀ c ∈ settingsPhaseCalls (applySettingsPhase cfg env.fns vc), P c :=
    fun vc => settingsPhaseCalls_bound cfg env.fns vc P hRate hPitch hF0Range hF0Perturb
      hVowel hAV hAF hAH hPers hF0Style hVoicingMode hGender hGlottal hSpeaking
  intro c hc
  simp only [runSpeakUtterance] at hc
  split_ifs at hc with h1 h2 h3 h4 h5
  · exact hvc c hc
  · rcases List.mem_append.1 hc with h | h
    · exact hvc c h
    · exact hsc _ c h
  · rcases List.mem_append.1 hc with h | h
    · exact hvc c h
    · exact hsc _ c h
  · rcases List.mem_append.1 hc with h | h
    · rcases List.mem_append.1 h with hx | hx
      · exact hvc c hx
      · exact hsc _ c hx
    · rcases runChunks_calls _ _ _ _ _ c h with ⟨ch, rfl⟩
      exact hTts ch
  · rcases List.mem_append.1 hc with h | h
    · rcases List.mem_append.1 h with hx | hx
      · rcases List.mem_append.1 hx with hy | hy
        · exact hvc c hy
        · exact hsc _ c hy
      · rcases runChunks_calls _ _ _ _ _ c hx with ⟨ch, rfl⟩
        exact hTts ch
    · simp only [List.mem_singleton] at h
      subst h
      exact hAbort
  · rcases List.mem_append.1 hc with h | h
    · rcases List.mem_append.1 h with hx | hx
      · exact hvc c hx
      · exact hsc _ c hx
    · rcases runChunks_calls _ _ _ _ _ c h with ⟨ch, rfl⟩
      exact hTts ch

/-- C3.  For every knob among personality, f0-style, voicing-mode,
gender, glottal-source and speaking-mode: if its user-set flag is 0, the
worker never calls the corresponding engine setter during any utterance,
regardless of voice changes, dirty flags or forcing conditions. -/
theorem userSet_zero_no_setter_c3 (s0 : SV_STATE) (cfg : Settings) (env : EngineEnv)
    (text : List Nat) (oracle : Nat → List (List Nat) × ChunkOutcome) :
    (cfg.personality.userSet = false → ∀ v,
      EngineCall.setPersonality v ∉ (runSpeakUtterance s0 cfg env text oracle).calls)
    ∧ (cfg.f0Style.userSet = false → ∀ v,
      EngineCall.setF0Style v ∉ (runSpeakUtterance s0 cfg env text oracle).calls)
    ∧ (cfg.voicingMode.userSet = false → ∀ v,
      EngineCall.setVoicingMode v ∉ (runSpeakUtterance s0 cfg env text oracle).calls)
    ∧ (cfg.gender.userSet = false → ∀ v,
      EngineCall.setGender v ∉ (runSpeakUtterance s0 cfg env text oracle).calls)
    ∧ (cfg.glottalSource.userSet = false → ∀ v,
      EngineCall.setGlottalSource v ∉ (runSpeakUtterance s0 cfg env text oracle).calls)
    ∧ (cfg.speakingMode.userSet = false → ∀ v,
      EngineCall.setSpeakingMode v ∉ (runSpeakUtterance s0 cfg env text oracle).calls) := by
  refine ⟨?_, ?_, ?_, ?_, ?_, ?_⟩
  · intro hu v hmem
    exact runSpeakUtterance_calls_bound s0 cfg env text oracle
      (fun c => c ≠ EngineCall.setPersonality v)
      (fun w => by simp) (by simp) (fun w => by simp) (by simp) (fun ch => by simp)
      (fun w => by simp) (fun w => by simp) (fun w => by simp) (fun w => by simp)
      (fun w => by simp) (fun w => by simp) (fun w => by simp) (fun w => by simp)
      (fun h => absurd (hu ▸ h) Bool.false_ne_true)
      (fun _ w => by simp) (fun _ w => by simp) (fun _ w => by simp)
      (fun _ w => by simp) (fun _ w => by simp)
      (EngineCall.setPersonality v) hmem rfl
  · intro hu v hmem
    exact runSpeakUtterance_calls_bound s0 cfg env text oracle
      (fun c => c ≠ EngineCall.setF0Style v)
      (fun w => by simp) (by simp) (fun w => by simp) (by simp) (fun ch => by simp)
      (fun w => by simp) (fun w => by simp) (fun w => by simp) (fun w => by simp)
      (fun w => by simp) (fun w => by simp) (fun w => by simp) (fun w => by simp)
      (fun _ w => by simp)
      (fun h => absurd (hu ▸ h) Bool.false_ne_true)
      (fun _ w => by simp) (fun _ w => by simp) (fun _ w => by simp) (fun _ w => by simp)
      (EngineCall.setF0Style v) hmem rfl
  · intro hu v hmem
    exact runSpeakUtterance_calls_bound s0 cfg env text oracle
      (fun c => c ≠ EngineCall.setVoicingMode v)
      (fun w => by simp) (by simp) (fun w => by simp) (by simp) (fun ch => by simp)
      (fun w => by simp) (fun w => by simp) (fun w => by simp) (fun w => by simp)
      (fun w => by simp) (fun w => by simp) (fun w => by simp) (fun w => by simp)
      (fun _ w => by simp)
      (fun _ w => by simp)
      (fun h => absurd (hu ▸ h) Bool.false_ne_true)
      (fun _ w => by simp) (fun _ w => by simp) (fun _ w => by simp)
      (EngineCall.setVoicingMode v) hmem rfl
  · intro hu v hmem
    exact runSpeakUtterance_calls_bound s0 cfg env text oracle
      (fun c => c ≠ EngineCall.setGender v)
      (fun w => by simp) (by simp) (fun w => by simp) (by simp) (fun ch => by simp)
      (fun w => by simp) (fun w => by simp) (fun w => by simp) (fun w => by simp)
      (fun w => by simp) (fun w => by simp) (fun w => by simp) (fun w => by simp)
      (fun _ w => by simp) (fun _ w => by simp) (fun _ w => by simp)
      (fun h => absurd (hu ▸ h) Bool.false_ne_true)
      (fun _ w => by simp) (fun _ w => by simp)
      (EngineCall.setGender v) hmem rfl
  · intro hu v hmem
    exact runSpeakUtterance_calls_bound s0 cfg env text oracle
      (fun c => c ≠ EngineCall.setGlottalSource v)
      (fun w => by simp) (by simp) (fun w => by simp) (by simp) (fun ch => by simp)
      (fun w => by simp) (fun w => by simp) (fun w => by simp) (fun w => by simp)
      (fun w => by simp) (fun w => by simp) (fun w => by simp) (fun w => by simp)
      (fun _ w => by simp) (fun _ w => by simp) (fun _ w => by simp) (fun _ w => by simp)
      (fun h => absurd (hu ▸ h) Bool.false_ne_true)
      (fun _ w => by simp)
      (EngineCall.setGlottalSource v) hmem rfl
  · intro hu v hmem
    exact runSpeakUtterance_calls_bound s0 cfg env text oracle
      (fun c => c ≠ EngineCall.setSpeakingMode v)
      (fun w => by simp) (by simp) (fun w => by simp) (by simp) (fun ch => by simp)
      (fun w => by simp) (fun w => by simp) (fun w => by simp) (fun w => by simp)
      (fun w => by simp) (fun w => by simp) (fun w => by simp) (fun w => by simp)
      (fun _ w => by simp) (fun _ w => by simp) (fun _ w => by simp) (fun _ w => by simp)
      (fun _ w => by simp)
      (fun h => absurd (hu ▸ h) Bool.false_ne_true)
      (EngineCall.setSpeakingMode v) hmem rfl

/-- Witness for C3 at a concrete utterance from the init defaults (no
optional knob user-set): the personality setter is never invoked. -/
theorem userSet_zero_no_setter_c3_witness :
    EngineCall.setPersonality 5 ∉
      (runSpeakUtterance initState (initialSettings 1) allEnv [104, 105]
        (fun _ => ([], ChunkOutcome.ok))).calls :=
  (userSet_zero_no_setter_c3 initState (initialSettings 1) allEnv [104, 105]
    (fun _ => ([], ChunkOutcome.ok))).1 (by decide) 5

/- ------------------------------------------------------------
Queue-shape support lemmas for C2 and C10.
------------------------------------------------------------ -/

/-- Every item of a queue is an AUDIO item of generation g. -/
def allAudioGen (g : Nat) (q : List StreamItem) : Prop :=
  ∀ it ∈ q, it.type = ItemType.audio ∧ it.gen = g

/-- Dropping one AUDIO item only removes items. -/
theorem dropOneAudio_subset (q : List StreamItem) (b : Nat) :
    ∀ q2 b2, dropOneAudio q b = Option.some (q2, b2) → ∀ it ∈ q2, it ∈ q := by
  induction q generalizing b with
  | nil => intro q2 b2 h; simp [dropOneAudio] at h
  | cons hd tl ih =>
    intro q2 b2 h it hmem
    unfold dropOneAudio at h
    by_cases hty : hd.type = ItemType.audio
    · rw [if_pos hty] at h
      simp only [Option.some.injEq, Prod.mk.injEq] at h
      rcases h with ⟨rfl, rfl⟩
      exact List.mem_cons_of_mem hd hmem
    · rw [if_neg hty] at h
      cases hr : dropOneAudio tl b with
      | none => rw [hr] at h; exact absurd h (by simp)
      | some p =>
        rw [hr] at h
        simp only [Option.some.injEq, Prod.mk.injEq] at h
        rcases h with ⟨rfl, rfl⟩
        rcases List.mem_cons.1 hmem with rfl | hm
        · exact List.mem_cons_self it tl
        · exact List.mem_cons_of_mem hd (ih b p.1 p.2 (by rw [hr]) it hm)

/-- The drop loop only removes items. -/
theorem enqueueDropLoop_subset (limit cap newSize : Nat) :
    ∀ fuel q bytes, ∀ it ∈ (enqueueDropLoop limit cap newSize fuel q bytes).1, it ∈ q := by
  intro fuel
  induction fuel with
  | zero =>
    intro q bytes it hmem
    rw [enqueueDropLoop] at hmem
    split_ifs at hmem
    · cases hd : dropOneAudio q bytes with
      | none => rw [hd] at hmem; exact hmem
      | some p =>
        rw [hd] at hmem
        exact dropOneAudio_subset q bytes p.1 p.2 (by rw [hd]) it hmem
    · exact hmem
  | succ fuel ih =>
    intro q bytes it hmem
    rw [enqueueDropLoop] at hmem
    split_ifs at hmem
    · cases hd : dropOneAudio q bytes with
      | none => rw [hd] at hmem; exact hmem
      | some p =>
        rw [hd] at hmem
        exact dropOneAudio_subset q bytes p.1 p.2 (by rw [hd]) it
          (ih p.1 p.2 it hmem)
    · exact hmem

/-- The hook enqueue never touches the generation gates, the counter or
the command queue, and it preserves an all-AUDIO queue of the current
generation. -/
theorem enqueueAudioFromHook_state (s : SV_STATE) (gen : Nat) (d : List Nat) :
    (enqueueAudioFromHook s gen d).currentGen = s.currentGen
    ∧ (enqueueAudioFromHook s gen d).activeGen = s.activeGen
    ∧ (enqueueAudioFromHook s gen d).genCounter = s.genCounter
    ∧ (allAudioGen gen s.outQ → s.currentGen = gen →
        allAudioGen gen (enqueueAudioFromHook s gen d).outQ) := by
  simp only [enqueueAudioFromHook]
  split_ifs <;>
    first
      | exact ⟨rfl, rfl, rfl, fun ha _ => ha⟩
      | (refine ⟨rfl, rfl, rfl, ?_⟩
         intro ha _ it hmem
         rcases List.mem_append.1 hmem with hm | hm
         · exact ha it (enqueueDropLoop_subset _ _ _ _ _ _ it hm)
         · simp only [List.mem_singleton] at hm
           subst hm
           exact ⟨rfl, rfl⟩)
      | (refine ⟨rfl, rfl, rfl, ?_⟩
         intro ha _ it hmem
         exact ha it (enqueueDropLoop_subset _ _ _ _ _ _ it hmem))

/-- Folding hook enqueues over a buffer list: same preservation. -/
theorem enqueueFold_state (gen : Nat) (bufs : List (List Nat)) (s : SV_STATE) :
    ((bufs.foldl (fun t b => enqueueAudioFromHook t gen b) s).currentGen = s.currentGen)
    ∧ ((bufs.foldl (fun t b => enqueueAudioFromHook t gen b) s).activeGen = s.activeGen)
    ∧ ((bufs.foldl (fun t b => enqueueAudioFromHook t gen b) s).genCounter = s.genCounter)
    ∧ (allAudioGen gen s.outQ → s.currentGen = gen →
        allAudioGen gen (bufs.foldl (fun t b => enqueueAudioFromHook t gen b) s).outQ) := by
  induction bufs generalizing s with
  | nil => exact ⟨rfl, rfl, rfl, fun ha _ => ha⟩
  | cons b rest ih =>
    simp only [List.foldl_cons]
    rcases enqueueAudioFromHook_state s gen b with ⟨hc, ha, hg, hq⟩
    rcases ih (enqueueAudioFromHook s gen b) with ⟨ihc, iha, ihg, ihq⟩
    refine ⟨by rw [ihc, hc], by rw [iha, ha], by rw [ihg, hg], ?_⟩
    intro hall hcur
    exact ihq (hq hall hcur) (by rw [hc, hcur])

/-- pushMarker with a live matching generation appends the marker and
touches nothing else. -/
theorem pushMarker_append (s : SV_STATE) (t : ItemType) (v : Int) (g : Nat)
    (hgen : s.currentGen = g) (hg : g ≠ 0) :
    (pushMarker s t v g).outQ
      = s.outQ ++ [{ type := t, value := v, gen := g, data := [], offset := 0 }]
    ∧ (pushMarker s t v g).currentGen = s.currentGen
    ∧ (pushMarker s t v g).genCounter = s.genCounter := by
  unfold pushMarker
  rw [if_neg (by simp [hgen, hg])]
  exact ⟨rfl, rfl, rfl⟩

/-- State shape across the chunk loop: with no external stop, the queue
stays all-AUDIO of the running generation, except that a timeout leaves a
trailing ERROR 2002 marker; the generation gates are untouched. -/
theorem runChunks_state_shape (g : Nat) (oracle : Nat → List (List Nat) × ChunkOutcome)
    (hg : g ≠ 0) (hstop : ∀ i, (oracle i).2 ≠ ChunkOutcome.stopSig) :
    ∀ chunks idx s, s.currentGen = g → allAudioGen g s.outQ →
      (runChunks g oracle chunks idx s).1.currentGen = g
      ∧ (runChunks g oracle chunks idx s).1.genCounter = s.genCounter
      ∧ (((runChunks g oracle chunks idx s).2.2.1 = false
          ∧ allAudioGen g (runChunks g oracle chunks idx s).1.outQ)
        ∨ ((runChunks g oracle chunks idx s).2.2.1 = true
          ∧ (runChunks g oracle chunks idx s).2.2.2 = false
          ∧ ∃ aud, allAudioGen g aud
            ∧ (runChunks g oracle chunks idx s).1.outQ = aud ++ [errorItem 2002 g])) := by
  intro chunks
  induction chunks with
  | nil =>
    intro idx s hcur hall
    exact ⟨hcur, rfl, Or.inl ⟨rfl, hall⟩⟩
  | cons chunk rest ih =>
    intro idx s hcur hall
    rw [runChunks]
    by_cases hch : chunk = []
    · rw [if_pos hch]
      exact ih _ s hcur hall
    · rw [if_neg hch]
      cases ho : (oracle idx).2 with
      | ttsFail => exact ⟨hcur, rfl, Or.inl ⟨rfl, hall⟩⟩
      | ok =>
        rcases enqueueFold_state g (oracle idx).1 s with ⟨hc2, _, hg2, hq2⟩
        have hall2 := hq2 hall hcur
        have hcur2 : ((oracle idx).1.foldl
            (fun t b => enqueueAudioFromHook t g b) s).currentGen = g := by
          rw [hc2]; exact hcur
        rcases ih (idx + 1) _ hcur2 hall2 with ⟨ihc, ihg, ihdisj⟩
        exact ⟨ihc, by rw [ihg, hg2], ihdisj⟩
      | timeout =>
        rcases enqueueFold_state g (oracle idx).1 s with ⟨hc2, _, hg2, hq2⟩
        have hall2 := hq2 hall hcur
        have hcur2 : ((oracle idx).1.foldl
            (fun t b => enqueueAudioFromHook t g b) s).currentGen = g := by
          rw [hc2]; exact hcur
        rcases pushMarker_append ((oracle idx).1.foldl
            (fun t b => enqueueAudioFromHook t g b) s) ItemType.error 2002 g hcur2 hg with
          ⟨hq, hcm, hgm⟩
        refine ⟨by rw [hcm]; exact hcur2, by rw [hgm, hg2], Or.inr ⟨rfl, rfl, ?_⟩⟩
        exact ⟨((oracle idx).1.foldl (fun t b => enqueueAudioFromHook t g b) s).outQ,
          hall2, by rw [hq]; rfl⟩
      | stopSig => exact absurd ho (hstop idx)

/-- Pushing an ERROR then a DONE at the end of an utterance appends both
markers. -/
theorem finish_two_markers (t : SV_STATE) (g : Nat) (hcur : t.currentGen = g)
    (hg : g ≠ 0) (v : Int) :
    (pushMarker (pushMarker { t with activeGen := 0 } ItemType.error v g)
      ItemType.done 0 g).outQ = t.outQ ++ [errorItem v g, doneItem g] := by
  have h1 := pushMarker_append { t with activeGen := 0 } ItemType.error v g hcur hg
  have h2 := pushMarker_append (pushMarker { t with activeGen := 0 } ItemType.error v g)
    ItemType.done 0 g (h1.2.1.trans hcur) hg
  rw [h2.1, h1.1]
  show (t.outQ ++ [errorItem v g]) ++ [doneItem g] = _
  rw [List.append_assoc]
  rfl

/-- Pushing the final DONE appends it. -/
theorem finish_one_marker (t : SV_STATE) (g : Nat) (hcur : t.currentGen = g)
    (hg : g ≠ 0) :
    (pushMarker { t with activeGen := 0 } ItemType.done 0 g).outQ
      = t.outQ ++ [doneItem g] := by
  have h1 := pushMarker_append { t with activeGen := 0 } ItemType.done 0 g hcur hg
  rw [h1.1]
  rfl

/-- C2 counterexample.  Speaking "hi" with a failing engine TTS call
yields ERROR 2001 followed by DONE, both tagged with the generation: the
consumer observes two terminating markers for one non-cancelled
utterance, not exactly one. -/
theorem utterance_single_marker_cex :
    ((runSpeakUtterance initState (initialSettings 1) allEnv [104, 105]
        (fun _ => ([], ChunkOutcome.ttsFail))).state.outQ
      = [errorItem 2001 1, doneItem 1])
    ∧ (((runSpeakUtterance initState (initialSettings 1) allEnv [104, 105]
        (fun _ => ([], ChunkOutcome.ttsFail))).state.outQ.filter
          (fun it => decide (it.type = ItemType.done ∨ it.type = ItemType.error))).length
        ≠ 1) := by
  decide

/-- C2 amended.  For every utterance of generation G that is not
cancelled, the output queue the consumer drains consists of zero or more
AUDIO items all tagged G, followed by either exactly one DONE tagged G,
or exactly one ERROR immediately followed by exactly one DONE, both
tagged G; no AUDIO tagged G follows the first marker. -/
theorem utterance_shape_c2_amended (s0 : SV_STATE) (cfg : Settings) (env : EngineEnv)
    (text : List Nat) (oracle : Nat → List (List Nat) × ChunkOutcome)
    (hg : s0.genCounter ≠ 0)
    (hstop : ∀ i, (oracle i).2 ≠ ChunkOutcome.stopSig) :
    ∃ audioPart : List StreamItem,
      allAudioGen (runSpeakUtterance s0 cfg env text oracle).gen audioPart
      ∧ ((runSpeakUtterance s0 cfg env text oracle).state.outQ
          = audioPart ++ [doneItem (runSpeakUtterance s0 cfg env text oracle).gen]
        ∨ ∃ v, (runSpeakUtterance s0 cfg env text oracle).state.outQ
          = audioPart ++ [errorItem v (runSpeakUtterance s0 cfg env text oracle).gen,
              doneItem (runSpeakUtterance s0 cfg env text oracle).gen]) := by
  simp only [runSpeakUtterance]
  split_ifs with h1 h2 h3 h4 h5
  · -- voice open failure: ERROR 2003 then DONE
    refine ⟨[], by intro it hmem; simp at hmem, Or.inr ⟨2003, ?_⟩⟩
    rw [finish_two_markers (beginUtterance s0).1 (beginUtterance s0).2 rfl hg 2003]
    rfl
  · -- empty sanitized text: DONE only
    refine ⟨[], by intro it hmem; simp at hmem, Or.inl ?_⟩
    rw [finish_one_marker (beginUtterance s0).1 (beginUtterance s0).2 rfl hg]
    rfl
  · -- no chunks: DONE only
    refine ⟨[], by intro it hmem; simp at hmem, Or.inl ?_⟩
    rw [finish_one_marker (beginUtterance s0).1 (beginUtterance s0).2 rfl hg]
    rfl
  · -- TTS failure: ERROR 2001 then DONE after the audio so far
    rcases runChunks_state_shape (beginUtterance s0).2 oracle hg hstop
        (splitSoftVoiceTextIntoChunks (sanitizeForSoftVoiceCp1252 text) 350) 0
        (beginUtterance s0).1 rfl (by intro it hmem; simp [beginUtterance] at hmem) with
      ⟨hcur, _, hdisj⟩
    rcases hdisj with ⟨hst, hall⟩ | ⟨hst, hte, aud, hauds, hq⟩
    · refine ⟨_, hall, Or.inr ⟨2001, ?_⟩⟩
      rw [finish_two_markers _ (beginUtterance s0).2 hcur hg 2001]
    · rw [hte] at h4
      exact absurd h4 (by simp)
  · -- stopped by timeout: the ERROR 2002 is already queued, DONE follows
    rcases runChunks_state_shape (beginUtterance s0).2 oracle hg hstop
        (splitSoftVoiceTextIntoChunks (sanitizeForSoftVoiceCp1252 text) 350) 0
        (beginUtterance s0).1 rfl (by intro it hmem; simp [beginUtterance] at hmem) with
      ⟨hcur, _, hdisj⟩
    rcases hdisj with ⟨hst, hall⟩ | ⟨hst, hte, aud, hauds, hq⟩
    · rw [hst] at h5
      exact absurd h5 (by simp)
    · refine ⟨aud, hauds, Or.inr ⟨2002, ?_⟩⟩
      rw [finish_one_marker _ (beginUtterance s0).2 hcur hg, hq, List.append_assoc]
      rfl
  · -- normal completion: DONE after the audio
    rcases runChunks_state_shape (beginUtterance s0).2 oracle hg hstop
        (splitSoftVoiceTextIntoChunks (sanitizeForSoftVoiceCp1252 text) 350) 0
        (beginUtterance s0).1 rfl (by intro it hmem; simp [beginUtterance] at hmem) with
      ⟨hcur, _, hdisj⟩
    rcases hdisj with ⟨hst, hall⟩ | ⟨hst, hte, aud, hauds, hq⟩
    · refine ⟨_, hall, Or.inl ?_⟩
      rw [finish_one_marker _ (beginUtterance s0).2 hcur hg]
    · rw [hst] at h5
      exact absurd h5 (by simp)

/-- Witness for the amended C2 at a concrete successful utterance. -/
theorem utterance_shape_c2_amended_witness :
    ∃ audioPart : List StreamItem,
      allAudioGen (runSpeakUtterance initState (initialSettings 1) allEnv [104, 105]
        (fun _ => ([[7, 8]], ChunkOutcome.ok))).gen audioPart
      ∧ ((runSpeakUtterance initState (initialSettings 1) allEnv [104, 105]
          (fun _ => ([[7, 8]], ChunkOutcome.ok))).state.outQ
          = audioPart ++ [doneItem (runSpeakUtterance initState (initialSettings 1) allEnv
              [104, 105] (fun _ => ([[7, 8]], ChunkOutcome.ok))).gen]
        ∨ ∃ v, (runSpeakUtterance initState (initialSettings 1) allEnv [104, 105]
            (fun _ => ([[7, 8]], ChunkOutcome.ok))).state.outQ
          = audioPart ++ [errorItem v (runSpeakUtterance initState (initialSettings 1) allEnv
              [104, 105] (fun _ => ([[7, 8]], ChunkOutcome.ok))).gen,
              doneItem (runSpeakUtterance initState (initialSettings 1) allEnv
                [104, 105] (fun _ => ([[7, 8]], ChunkOutcome.ok))).gen]) :=
  utterance_shape_c2_amended initState (initialSettings 1) allEnv [104, 105]
    (fun _ => ([[7, 8]], ChunkOutcome.ok)) (by decide)
    (fun _ h => ChunkOutcome.noConfusion h)

/- ------------------------------------------------------------
C10: empty sanitized text still completes with one DONE.
------------------------------------------------------------ -/

/-- C10.  For every SPEAK command whose text sanitizes to the empty
string and that is not cancelled, the worker makes no engine TTS call,
enqueues no AUDIO for that generation, and pushes exactly one DONE
marker (preceded by an ERROR 2003 only when the voice switch itself
failed), so the consumer still observes utterance completion. -/
theorem empty_text_done_c10 (s0 : SV_STATE) (cfg : Settings) (env : EngineEnv)
    (text : List Nat) (oracle : Nat → List (List Nat) × ChunkOutcome)
    (hg : s0.genCounter ≠ 0)
    (hempty : sanitizeForSoftVoiceCp1252 text = []) :
    (∀ ch, EngineCall.tts ch ∉ (runSpeakUtterance s0 cfg env text oracle).calls)
    ∧ (∀ it ∈ (runSpeakUtterance s0 cfg env text oracle).state.outQ,
        it.type ≠ ItemType.audio)
    ∧ ((runSpeakUtterance s0 cfg env text oracle).state.outQ
        = [doneItem (runSpeakUtterance s0 cfg env text oracle).gen]
      ∨ (runSpeakUtterance s0 cfg env text oracle).state.outQ
        = [errorItem 2003 (runSpeakUtterance s0 cfg env text oracle).gen,
            doneItem (runSpeakUtterance s0 cfg env text oracle).gen])
    ∧ ((runSpeakUtterance s0 cfg env text oracle).state.outQ.filter
        (fun it => decide (it.type = ItemType.done))).length = 1 := by
  simp only [runSpeakUtterance, hempty, if_pos]
  split_ifs with h1
  · -- voice open failure: ERROR 2003 then DONE, no TTS
    have hqq : (pushMarker (pushMarker { (beginUtterance s0).1 with activeGen := 0 }
        ItemType.error 2003 (beginUtterance s0).2) ItemType.done 0 (beginUtterance s0).2).outQ
        = [errorItem 2003 (beginUtterance s0).2, doneItem (beginUtterance s0).2] := by
      rw [finish_two_markers (beginUtterance s0).1 (beginUtterance s0).2 rfl hg 2003]
      rfl
    refine ⟨?_, ?_, Or.inr hqq, ?_⟩
    · intro ch hmem
      rcases voicePhase_calls env cfg _ hmem with ⟨v, h⟩ | h | ⟨v, h⟩ <;> simp at h
    · intro it hmem
      rw [hqq] at hmem
      rcases List.mem_cons.1 hmem with rfl | hmem2
      · simp [errorItem]
      · simp only [List.mem_singleton] at hmem2
        subst hmem2
        simp [doneItem]
    · rw [hqq]
      rfl
  · -- normal path: DONE only, no TTS
    have hqq : (pushMarker { (beginUtterance s0).1 with activeGen := 0 }
        ItemType.done 0 (beginUtterance s0).2).outQ
        = [doneItem (beginUtterance s0).2] := by
      rw [finish_one_marker (beginUtterance s0).1 (beginUtterance s0).2 rfl hg]
      rfl
    refine ⟨?_, ?_, Or.inl hqq, ?_⟩
    · intro ch hmem
      rcases List.mem_append.1 hmem with h | h
      · rcases voicePhase_calls env cfg _ h with ⟨v, hx⟩ | hx | ⟨v, hx⟩ <;> simp at hx
      · exact settingsPhaseCalls_bound cfg env.fns _
          (fun c => c ≠ EngineCall.tts ch)
          (fun w => by simp) (fun w => by simp) (fun w => by simp) (fun w => by simp)
          (fun w => by simp) (fun w => by simp) (fun w => by simp) (fun w => by simp)
          (fun _ w => by simp) (fun _ w => by simp) (fun _ w => by simp)
          (fun _ w => by simp) (fun _ w => by simp) (fun _ w => by simp)
          (EngineCall.tts ch) h rfl
    · intro it hmem
      rw [hqq] at hmem
      simp only [List.mem_singleton] at hmem
      subst hmem
      simp [doneItem]
    · rw [hqq]
      rfl

/-- Witness for C10 at a whitespace-only text. -/
theorem empty_text_done_c10_witness :
    (∀ ch, EngineCall.tts ch ∉ (runSpeakUtterance initState (initialSettings 1) allEnv
        [32, 9, 32] (fun _ => ([], ChunkOutcome.ok))).calls)
    ∧ (∀ it ∈ (runSpeakUtterance initState (initialSettings 1) allEnv [32, 9, 32]
        (fun _ => ([], ChunkOutcome.ok))).state.outQ, it.type ≠ ItemType.audio)
    ∧ ((runSpeakUtterance initState (initialSettings 1) allEnv [32, 9, 32]
        (fun _ => ([], ChunkOutcome.ok))).state.outQ
        = [doneItem (runSpeakUtterance initState (initialSettings 1) allEnv [32, 9, 32]
            (fun _ => ([], ChunkOutcome.ok))).gen]
      ∨ (runSpeakUtterance initState (initialSettings 1) allEnv [32, 9, 32]
          (fun _ => ([], ChunkOutcome.ok))).state.outQ
        = [errorItem 2003 (runSpeakUtterance initState (initialSettings 1) allEnv [32, 9, 32]
            (fun _ => ([], ChunkOutcome.ok))).gen,
            doneItem (runSpeakUtterance initState (initialSettings 1) allEnv [32, 9, 32]
              (fun _ => ([], ChunkOutcome.ok))).gen])
    ∧ ((runSpeakUtterance initState (initialSettings 1) allEnv [32, 9, 32]
        (fun _ => ([], ChunkOutcome.ok))).state.outQ.filter
          (fun it => decide (it.type = ItemType.done))).length = 1 :=
  empty_text_done_c10 initState (initialSettings 1) allEnv [32, 9, 32]
    (fun _ => ([], ChunkOutcome.ok)) (by decide) (by decide)

/- ------------------------------------------------------------
C7: the queued-audio-bytes counter invariant.
------------------------------------------------------------ -/

/-- The accounting invariant: the tracked counter equals the sum of
(data.size - offset) over the AUDIO items of the queue. -/
def queuedBytesInvariant (s : SV_STATE) : Prop :=
  s.queuedAudioBytes = audioBytesOf s.outQ

theorem audioBytesOf_append (a b : List StreamItem) :
    audioBytesOf (a ++ b) = audioBytesOf a + audioBytesOf b := by
  induction a with
  | nil => simp [audioBytesOf]
  | cons hd tl ih => simp [audioBytesOf, ih, Nat.add_assoc]

theorem audioBytesOf_reverse (q : List StreamItem) :
    audioBytesOf q.reverse = audioBytesOf q := by
  induction q with
  | nil => rfl
  | cons hd tl ih =>
    rw [List.reverse_cons, audioBytesOf_append, ih]
    simp [audioBytesOf]
    omega

theorem dropOneAudio_preserves (q : List StreamItem) :
    ∀ b, b = audioBytesOf q →
      ∀ q2 b2, dropOneAudio q b = Option.some (q2, b2) → b2 = audioBytesOf q2 := by
  induction q with
  | nil => intro b h q2 b2 hd; simp [dropOneAudio] at hd
  | cons hd tl ih =>
    intro b h q2 b2 hdrop
    unfold dropOneAudio at hdrop
    by_cases hty : hd.type = ItemType.audio
    · rw [if_pos hty] at hdrop
      simp only [Option.some.injEq, Prod.mk.injEq] at hdrop
      rcases hdrop with ⟨rfl, rfl⟩
      have hsum : audioBytesOf (hd :: tl) = itemRemaining hd + audioBytesOf tl := by
        simp [audioBytesOf, hty]
      rw [h, hsum]
      omega
    · rw [if_neg hty] at hdrop
      cases hr : dropOneAudio tl b with
      | none => rw [hr] at hdrop; exact absurd hdrop (by simp)
      | some p =>
        rw [hr] at hdrop
        simp only [Option.some.injEq, Prod.mk.injEq] at hdrop
        rcases hdrop with ⟨rfl, rfl⟩
        have hb : b = audioBytesOf tl := by
          rw [h]; simp [audioBytesOf, hty]
        have hp := ih b hb p.1 p.2 (by rw [hr])
        simp [audioBytesOf, hty, hp]

theorem enqueueDropLoop_preserves (limit cap newSize : Nat) :
    ∀ fuel q bytes, bytes = audioBytesOf q →
      (enqueueDropLoop limit cap newSize fuel q bytes).2.1
        = audioBytesOf (enqueueDropLoop limit cap newSize fuel q bytes).1 := by
  intro fuel
  induction fuel with
  | zero =>
    intro q bytes h
    rw [enqueueDropLoop]
    split_ifs
    · cases hd : dropOneAudio q bytes with
      | none => exact h
      | some p => exact dropOneAudio_preserves q bytes h p.1 p.2 (by rw [hd])
    · exact h
  | succ fuel ih =>
    intro q bytes h
    rw [enqueueDropLoop]
    split_ifs
    · cases hd : dropOneAudio q bytes with
      | none => exact h
      | some p => exact ih p.1 p.2 (dropOneAudio_preserves q bytes h p.1 p.2 (by rw [hd]))
    · exact h

theorem enqueueAudioFromHook_preserves (s : SV_STATE) (gen : Nat) (d : List Nat)
    (h : queuedBytesInvariant s) :
    queuedBytesInvariant (enqueueAudioFromHook s gen d) := by
  unfold queuedBytesInvariant at h ⊢
  simp only [enqueueAudioFromHook]
  split_ifs with h1 h2 h3 h4
  · exact h
  · exact h
  · -- accepted with the real limit
    rw [audioBytesOf_append]
    rw [← enqueueDropLoop_preserves _ _ _ _ _ _ h]
    simp [audioBytesOf, itemRemaining]
  · exact enqueueDropLoop_preserves _ _ _ _ _ _ h
  · rw [audioBytesOf_append]
    rw [← enqueueDropLoop_preserves _ _ _ _ _ _ h]
    simp [audioBytesOf, itemRemaining]
  · exact enqueueDropLoop_preserves _ _ _ _ _ _ h

theorem pushMarker_preserves (s : SV_STATE) (t : ItemType) (v : Int) (gen : Nat)
    (h : queuedBytesInvariant s) :
    queuedBytesInvariant (pushMarker s t v gen) := by
  unfold queuedBytesInvariant at h ⊢
  unfold pushMarker
  split_ifs
  · exact h
  · rw [audioBytesOf_append, h]
    simp [audioBytesOf, itemRemaining]

theorem dropStaleLoop_preserves (curGen : Nat) :
    ∀ q bytes, bytes = audioBytesOf q →
      (dropStaleLoop curGen q bytes).2 = audioBytesOf (dropStaleLoop curGen q bytes).1 := by
  intro q
  induction q with
  | nil => intro bytes h; exact h
  | cons hd tl ih =>
    intro bytes h
    rw [dropStaleLoop]
    split_ifs with hgen hty
    · refine ih _ ?_
      have hsum : audioBytesOf (hd :: tl) = itemRemaining hd + audioBytesOf tl := by
        simp [audioBytesOf, hty]
      rw [h, hsum]
      omega
    · refine ih _ ?_
      rw [h]
      simp [audioBytesOf, hty]
    · exact h

set_option maxHeartbeats 1000000 in
theorem computeLeadingTrim_offset_guard (formatValid : Bool) (fmt : WaveFormat)
    (it : StreamItem) (bytesPerSec maxTrimMs keepMs threshold16 : Nat) :
    computeLeadingTrimBytesLocked formatValid fmt it bytesPerSec maxTrimMs keepMs
      threshold16 ≠ 0 → it.offset = 0 := by
  intro h
  by_contra hoff
  apply h
  simp only [computeLeadingTrimBytesLocked]
  simp [hoff]

theorem leadTrimFirstAudio_preserves (trimOf : StreamItem → Nat)
    (hguard : ∀ it, trimOf it ≠ 0 → it.offset = 0) :
    ∀ q b, b = audioBytesOf q →
      (leadTrimFirstAudio trimOf q b).2 = audioBytesOf (leadTrimFirstAudio trimOf q b).1 := by
  intro q
  induction q with
  | nil => intro b h; exact h
  | cons hd tl ih =>
    intro b h
    have hsum : audioBytesOf (hd :: tl)
        = (if hd.type = ItemType.audio then hd.data.length - hd.offset else 0)
          + audioBytesOf tl := by
      simp [audioBytesOf, itemRemaining]
    simp only [leadTrimFirstAudio]
    split_ifs with hty htr hclamp
    · -- AUDIO head, clamp hit: trim equals the full data size
      have hoff : hd.offset = 0 := hguard hd (by omega)
      rw [hsum, if_pos hty] at h
      have hres : audioBytesOf ({ hd with offset := hd.offset + hd.data.length } :: tl)
          = (hd.data.length - (hd.offset + hd.data.length)) + audioBytesOf tl := by
        simp [audioBytesOf, itemRemaining, hty]
      rw [hres]
      omega
    · -- AUDIO head, unclamped trim
      have hoff : hd.offset = 0 := hguard hd (by omega)
      rw [hsum, if_pos hty] at h
      have hres : audioBytesOf ({ hd with offset := hd.offset + trimOf hd } :: tl)
          = (hd.data.length - (hd.offset + trimOf hd)) + audioBytesOf tl := by
        simp [audioBytesOf, itemRemaining, hty]
      rw [hres]
      omega
    · exact h
    · -- non-AUDIO head: recurse
      have hb : b = audioBytesOf tl := by
        rw [hsum, if_neg hty] at h
        omega
      have hrec := ih b hb
      simp [audioBytesOf, hty, hrec]

theorem popEmptyFrontAudio_bytes (q : List StreamItem) :
    audioBytesOf (popEmptyFrontAudio q) = audioBytesOf q := by
  induction q with
  | nil => rfl
  | cons hd tl ih =>
    rw [popEmptyFrontAudio]
    split_ifs with hc
    · rw [ih]
      have : itemRemaining hd = 0 := by
        unfold itemRemaining
        omega
      simp [audioBytesOf, hc.1, this]
    · rfl

theorem trailTrimAdjust_spec (trimOf : StreamItem → Nat) (it : StreamItem) (b : Nat) :
    (trailTrimAdjust trimOf it b).1.type = it.type
    ∧ ∀ rest, b = itemRemaining it + rest →
        (trailTrimAdjust trimOf it b).2 = itemRemaining (trailTrimAdjust trimOf it b).1 + rest := by
  simp only [trailTrimAdjust]
  split_ifs <;>
    refine ⟨rfl, ?_⟩ <;>
    intro rest h <;>
    simp only [itemRemaining, List.length_take] at h ⊢ <;>
    omega

theorem tailTrimLastAudioRev_preserves (trimOf : StreamItem → Nat) :
    ∀ q b, b = audioBytesOf q →
      (tailTrimLastAudioRev trimOf q b).2
        = audioBytesOf (tailTrimLastAudioRev trimOf q b).1 := by
  intro q
  induction q with
  | nil => intro b h; exact h
  | cons hd tl ih =>
    intro b h
    rw [tailTrimLastAudioRev]
    split_ifs with hty
    · rcases trailTrimAdjust_spec trimOf hd b with ⟨htype, hspec⟩
      have hsum : b = itemRemaining hd + audioBytesOf tl := by
        rw [h]; simp [audioBytesOf, hty]
      have := hspec (audioBytesOf tl) hsum
      simp only [audioBytesOf]
      rw [htype, if_pos hty]
      exact this
    · have hb : b = audioBytesOf tl := by
        rw [h]; simp [audioBytesOf, hty]
      have := ih b hb
      simp [audioBytesOf, hty, this]

theorem tailTrimLastAudio_preserves (trimOf : StreamItem → Nat)
    (q : List StreamItem) (b : Nat) (h : b = audioBytesOf q) :
    (tailTrimLastAudio trimOf q b).2 = audioBytesOf (tailTrimLastAudio trimOf q b).1 := by
  unfold tailTrimLastAudio
  have hrev : b = audioBytesOf q.reverse := by rw [audioBytesOf_reverse]; exact h
  have := tailTrimLastAudioRev_preserves trimOf q.reverse b hrev
  simp only [audioBytesOf_reverse]
  exact this

theorem svReadTrimBlock_preserves (s : SV_STATE) (curGen : Nat)
    (q : List StreamItem) (b : Nat) (h : b = audioBytesOf q) :
    (svReadTrimBlock s curGen q b).2.1 = audioBytesOf (svReadTrimBlock s curGen q b).1 := by
  simp only [svReadTrimBlock]
  split_ifs <;>
    first
      | exact h
      | exact tailTrimLastAudio_preserves _ _ _ h
      | (rw [popEmptyFrontAudio_bytes]
         exact leadTrimFirstAudio_preserves _
           (fun it => computeLeadingTrim_offset_guard _ _ _ _ _ _ _) q b h)
      | (refine tailTrimLastAudio_preserves _ _ _ ?_
         rw [popEmptyFrontAudio_bytes]
         exact leadTrimFirstAudio_preserves _
           (fun it => computeLeadingTrim_offset_guard _ _ _ _ _ _ _) q b h)

theorem svReadDeliver_preserves (s1 : SV_STATE) (cap : Int) (h : queuedBytesInvariant s1) :
    queuedBytesInvariant (svReadDeliver s1 cap).state := by
  unfold queuedBytesInvariant at h ⊢
  simp only [svReadDeliver]
  split
  · exact h
  next front rest heq =>
    rw [heq] at h
    simp only [audioBytesOf, itemRemaining] at h
    split_ifs at h ⊢ <;>
      (try simp_all [audioBytesOf, itemRemaining]) <;>
      omega

theorem sv_read_preserves (s : SV_STATE) (cap : Int) (h : queuedBytesInvariant s) :
    queuedBytesInvariant (sv_read s cap).state := by
  have hinv := h
  unfold queuedBytesInvariant at hinv
  simp only [sv_read]
  split_ifs with hcap hgen hq0
  · exact h
  · unfold queuedBytesInvariant
    rfl
  · exact dropStaleLoop_preserves s.currentGen s.outQ s.queuedAudioBytes hinv
  · have hd := dropStaleLoop_preserves s.currentGen s.outQ s.queuedAudioBytes hinv
    have ht := svReadTrimBlock_preserves s s.currentGen
      (dropStaleLoop s.currentGen s.outQ s.queuedAudioBytes).1
      (dropStaleLoop s.currentGen s.outQ s.queuedAudioBytes).2 hd
    exact svReadDeliver_preserves _ cap ht
  · have hd := dropStaleLoop_preserves s.currentGen s.outQ s.queuedAudioBytes hinv
    exact svReadDeliver_preserves _ cap hd

theorem sv_stop_preserves (s : SV_STATE) : queuedBytesInvariant (sv_stop s) := by
  unfold queuedBytesInvariant sv_stop
  rfl

theorem beginUtterance_preserves (s : SV_STATE) :
    queuedBytesInvariant (beginUtterance s).1 := by
  unfold queuedBytesInvariant beginUtterance
  rfl

theorem stepEv_preserves (s : SV_STATE) (ev : WEvent) (h : queuedBytesInvariant s) :
    queuedBytesInvariant (stepEv s ev) := by
  cases ev with
  | stopEv => exact sv_stop_preserves s
  | hookAudio g d => exact enqueueAudioFromHook_preserves s g d h
  | markerEv t v g => exact pushMarker_preserves s t v g h
  | readEv cap => exact sv_read_preserves s cap h
  | beginUtt => exact beginUtterance_preserves s
  | gateOff => exact h

theorem runEvents_preserves (evs : List WEvent) :
    ∀ s, queuedBytesInvariant s → queuedBytesInvariant (runEvents s evs) := by
  induction evs with
  | nil => intro s h; exact h
  | cons ev rest ih =>
    intro s h
    exact ih (stepEv s ev) (stepEv_preserves s ev h)

/-- **C7.** The tracked queued-audio-bytes counter equals the sum of
(data.size − offset) over the AUDIO items of the output queue, and every
operation on the queue preserves this equality: push-audio with its drop
loop, push-marker, sv_read (with its stale-item discard, the leading and
trailing silence trims, the partial copy and the pop), the clear done by
sv_stop, the clear at the start of an utterance, and hence any
interleaving of these operations. -/
theorem queue_ops_preserve_bytes_c7 (s : SV_STATE) (h : queuedBytesInvariant s) :
    (∀ gen data, queuedBytesInvariant (enqueueAudioFromHook s gen data)) ∧
    (∀ t v gen, queuedBytesInvariant (pushMarker s t v gen)) ∧
    (∀ cap, queuedBytesInvariant (sv_read s cap).state) ∧
    queuedBytesInvariant (sv_stop s) ∧
    queuedBytesInvariant (beginUtterance s).1 ∧
    (∀ evs, queuedBytesInvariant (runEvents s evs)) :=
  ⟨fun gen data => enqueueAudioFromHook_preserves s gen data h,
   fun t v gen => pushMarker_preserves s t v gen h,
   fun cap => sv_read_preserves s cap h,
   sv_stop_preserves s,
   beginUtterance_preserves s,
   fun evs => runEvents_preserves evs s h⟩

theorem queue_ops_preserve_bytes_c7_witness :
    queuedBytesInvariant initState ∧
    queuedBytesInvariant (runEvents initState
      [WEvent.beginUtt, WEvent.hookAudio 1 [0, 0, 0, 0], WEvent.readEv 2,
       WEvent.markerEv ItemType.done 0 1, WEvent.stopEv]) :=
  ⟨rfl, (queue_ops_preserve_bytes_c7 initState rfl).2.2.2.2.2 _⟩

/- ------------------------------------------------------------
C6: limit enforcement of enqueueAudioFromHook.
------------------------------------------------------------ -/

/-- The non-AUDIO (marker) items of a queue, in order. -/
def markersOf (q : List StreamItem) : List StreamItem :=
  q.filter (fun it => decide (it.type ≠ ItemType.audio))

/-- The effective byte ceiling used by enqueueAudioFromHook (its local
`limit`): the computed maxBufferedBytes, or 512 KiB when unset. -/
def enqueueLimit (s : SV_STATE) : Nat :=
  if s.maxBufferedBytes > 0 then s.maxBufferedBytes else 512 * 1024

/-- The drop-loop invocation of enqueueAudioFromHook, with the fuel it is
run at there: queue, byte counter and acceptance flag after the while
loop. -/
def enqueueLoopResult (s : SV_STATE) (data : List Nat) : List StreamItem × Nat × Bool :=
  enqueueDropLoop (enqueueLimit s) s.maxQueueItems data.length
    (s.outQ.length + 1) s.outQ s.queuedAudioBytes

theorem dropOneAudio_decomp (q : List StreamItem) (b : Nat) :
    ∀ q2 b2, dropOneAudio q b = Option.some (q2, b2) →
      ∃ pre a post, q = pre ++ a :: post ∧ a.type = ItemType.audio ∧
        (∀ x ∈ pre, x.type ≠ ItemType.audio) ∧ q2 = pre ++ post := by
  induction q generalizing b with
  | nil => intro q2 b2 h; simp [dropOneAudio] at h
  | cons hd tl ih =>
    intro q2 b2 h
    unfold dropOneAudio at h
    by_cases hty : hd.type = ItemType.audio
    · rw [if_pos hty] at h
      simp only [Option.some.injEq, Prod.mk.injEq] at h
      rcases h with ⟨rfl, rfl⟩
      exact ⟨[], hd, tl, rfl, hty, by simp, rfl⟩
    · rw [if_neg hty] at h
      cases hr : dropOneAudio tl b with
      | none => rw [hr] at h; exact absurd h (by simp)
      | some p =>
        rw [hr] at h
        simp only [Option.some.injEq, Prod.mk.injEq] at h
        rcases h with ⟨rfl, rfl⟩
        rcases ih b p.1 p.2 (by rw [hr]) with ⟨pre, a, post, he, ha, hpre, h2⟩
        refine ⟨hd :: pre, a, post, by simp [he], ha, ?_, by simp [h2]⟩
        intro x hx
        rcases List.mem_cons.1 hx with rfl | hx2
        · exact hty
        · exact hpre x hx2

theorem dropOneAudio_markers (q : List StreamItem) (b : Nat) (q2 : List StreamItem)
    (b2 : Nat) (h : dropOneAudio q b = Option.some (q2, b2)) :
    markersOf q2 = markersOf q := by
  rcases dropOneAudio_decomp q b q2 b2 h with ⟨pre, a, post, rfl, ha, hpre, rfl⟩
  simp [markersOf, List.filter_append, ha]

theorem dropOneAudio_length (q : List StreamItem) (b : Nat) (q2 : List StreamItem)
    (b2 : Nat) (h : dropOneAudio q b = Option.some (q2, b2)) :
    q2.length + 1 = q.length := by
  rcases dropOneAudio_decomp q b q2 b2 h with ⟨pre, a, post, rfl, ha, hpre, rfl⟩
  simp
  omega

theorem dropOneAudio_none (q : List StreamItem) (b : Nat)
    (h : dropOneAudio q b = Option.none) : ∀ it ∈ q, it.type ≠ ItemType.audio := by
  induction q generalizing b with
  | nil => intro it hit; simp at hit
  | cons hd tl ih =>
    intro it hit
    unfold dropOneAudio at h
    by_cases hty : hd.type = ItemType.audio
    · rw [if_pos hty] at h; exact absurd h (by simp)
    · rw [if_neg hty] at h
      cases hr : dropOneAudio tl b with
      | some p => rw [hr] at h; simp at h
      | none =>
        rcases List.mem_cons.1 hit with rfl | hm
        · exact hty
        · exact ih b hr it hm

/-- The drop loop never removes a marker. -/
theorem enqueueDropLoop_markers (limit cap newSize : Nat) :
    ∀ fuel q bytes,
      markersOf (enqueueDropLoop limit cap newSize fuel q bytes).1 = markersOf q := by
  intro fuel
  induction fuel with
  | zero =>
    intro q bytes
    rw [enqueueDropLoop]
    split_ifs
    · cases hd : dropOneAudio q bytes with
      | none => rfl
      | some p => exact dropOneAudio_markers q bytes p.1 p.2 (by rw [hd])
    · rfl
  | succ fuel ih =>
    intro q bytes
    rw [enqueueDropLoop]
    split_ifs
    · cases hd : dropOneAudio q bytes with
      | none => rfl
      | some p =>
        rw [ih p.1 p.2]
        exact dropOneAudio_markers q bytes p.1 p.2 (by rw [hd])
    · rfl

/-- When the drop loop accepts the new item, both limits hold with the
new item counted in. -/
theorem enqueueDropLoop_fits (limit cap newSize : Nat) :
    ∀ fuel q bytes,
      (enqueueDropLoop limit cap newSize fuel q bytes).2.2 = true →
      (enqueueDropLoop limit cap newSize fuel q bytes).2.1 + newSize ≤ limit ∧
      (enqueueDropLoop limit cap newSize fuel q bytes).1.length < cap := by
  intro fuel
  induction fuel with
  | zero =>
    intro q bytes h
    rw [enqueueDropLoop] at h ⊢
    split_ifs at h ⊢ with hcond
    · cases hd : dropOneAudio q bytes with
      | none => rw [hd] at h; simp at h
      | some p => rw [hd] at h; simp at h
    · push_neg at hcond
      exact ⟨hcond.1, hcond.2⟩
  | succ fuel ih =>
    intro q bytes h
    rw [enqueueDropLoop] at h ⊢
    split_ifs at h ⊢ with hcond
    · cases hd : dropOneAudio q bytes with
      | none => rw [hd] at h; simp at h
      | some p =>
        rw [hd] at h
        exact ih p.1 p.2 h
    · push_neg at hcond
      exact ⟨hcond.1, hcond.2⟩

/-- When the drop loop gives up (with enough fuel, as the source while
loop always has), no AUDIO item remains in the resulting queue. -/
theorem enqueueDropLoop_reject (limit cap newSize : Nat) :
    ∀ fuel q bytes, q.length ≤ fuel →
      (enqueueDropLoop limit cap newSize fuel q bytes).2.2 = false →
      ∀ it ∈ (enqueueDropLoop limit cap newSize fuel q bytes).1,
        it.type ≠ ItemType.audio := by
  intro fuel
  induction fuel with
  | zero =>
    intro q bytes hlen hfalse it hmem
    have hq : q = [] := List.eq_nil_of_length_eq_zero (Nat.le_zero.mp hlen)
    subst hq
    rw [enqueueDropLoop] at hmem
    split_ifs at hmem
    · simp [dropOneAudio] at hmem
    · simp at hmem
  | succ fuel ih =>
    intro q bytes hlen hfalse it hmem
    rw [enqueueDropLoop] at hfalse hmem
    split_ifs at hfalse hmem with hcond
    · cases hd : dropOneAudio q bytes with
      | none =>
        rw [hd] at hmem
        exact dropOneAudio_none q bytes hd it hmem
      | some p =>
        rw [hd] at hfalse hmem
        have hl : p.1.length ≤ fuel := by
          have := dropOneAudio_length q bytes p.1 p.2 (by rw [hd])
          omega
        exact ih p.1 p.2 hl hfalse it hmem

/-- Accepted/rejected unfolding of the hook enqueue for a live, matching
generation and a non-empty buffer. -/
theorem enqueueAudioFromHook_cases (s : SV_STATE) (data : List Nat)
    (hd : data ≠ []) (hc : s.currentGen ≠ 0) :
    enqueueAudioFromHook s s.currentGen data =
      if (enqueueLoopResult s data).2.2 then
        { s with
          outQ := (enqueueLoopResult s data).1 ++
            [{ type := ItemType.audio, value := 0, gen := s.currentGen,
               data := data, offset := 0 }],
          queuedAudioBytes := (enqueueLoopResult s data).2.1 + data.length }
      else
        { s with
          outQ := (enqueueLoopResult s data).1,
          queuedAudioBytes := (enqueueLoopResult s data).2.1 } := by
  simp [enqueueAudioFromHook, enqueueLoopResult, enqueueLimit, hd, hc]

/-- **C6.** For a push-audio of a non-empty buffer under the live current
generation: the byte ceiling is bytes/sec x 60 s clamped into
[256 KiB, 8 MiB] (bytes/sec defaulting to 22050 when unknown); the drop
loop removes only existing items and never a DONE or ERROR marker; when
the new item is accepted the queued audio bytes stay at most the ceiling
and the item count at most the cap; and the new item is dropped exactly
when no AUDIO remains to drop, leaving a marker-only queue. -/
theorem enqueue_limits_c6 (s : SV_STATE) (gen : Nat) (data : List Nat)
    (hc : s.currentGen ≠ 0) (hg : gen = s.currentGen) (hd : data ≠ []) :
    (∀ bps, computeBufferLimits bps =
      min (max ((if bps = 0 then 22050 else bps) * 60) (256 * 1024))
        (8 * 1024 * 1024)) ∧
    markersOf (enqueueAudioFromHook s gen data).outQ = markersOf s.outQ ∧
    (∀ it ∈ (enqueueLoopResult s data).1, it ∈ s.outQ) ∧
    ((enqueueLoopResult s data).2.2 = true →
      (enqueueAudioFromHook s gen data).outQ =
        (enqueueLoopResult s data).1 ++
          [{ type := ItemType.audio, value := 0, gen := gen,
             data := data, offset := 0 }] ∧
      (enqueueAudioFromHook s gen data).queuedAudioBytes ≤ enqueueLimit s ∧
      (enqueueAudioFromHook s gen data).outQ.length ≤ s.maxQueueItems) ∧
    ((enqueueLoopResult s data).2.2 = false →
      (enqueueAudioFromHook s gen data).outQ = (enqueueLoopResult s data).1 ∧
      ∀ it ∈ (enqueueAudioFromHook s gen data).outQ,
        it.type ≠ ItemType.audio) := by
  subst hg
  have hca := enqueueAudioFromHook_cases s data hd hc
  refine ⟨?_, ?_, ?_, ?_, ?_⟩
  · intro bps
    simp only [computeBufferLimits]
    split_ifs <;> omega
  · rw [hca]
    split_ifs
    · show markersOf ((enqueueLoopResult s data).1 ++
          [({ type := ItemType.audio, value := 0, gen := s.currentGen,
              data := data, offset := 0 } : StreamItem)]) = markersOf s.outQ
      rw [markersOf, List.filter_append]
      have h1 : List.filter (fun it => decide (it.type ≠ ItemType.audio))
          [({ type := ItemType.audio, value := 0, gen := s.currentGen,
              data := data, offset := 0 } : StreamItem)] = [] := by simp
      rw [h1, List.append_nil, ← markersOf, enqueueLoopResult]
      exact enqueueDropLoop_markers _ _ _ _ _ _
    · show markersOf (enqueueLoopResult s data).1 = markersOf s.outQ
      rw [enqueueLoopResult]
      exact enqueueDropLoop_markers _ _ _ _ _ _
  · intro it hmem
    rw [enqueueLoopResult] at hmem
    exact enqueueDropLoop_subset _ _ _ _ _ _ it hmem
  · intro htrue
    rw [hca, if_pos htrue]
    have hf := enqueueDropLoop_fits (enqueueLimit s) s.maxQueueItems data.length
      (s.outQ.length + 1) s.outQ s.queuedAudioBytes htrue
    have h1 : (enqueueLoopResult s data).2.1 + data.length ≤ enqueueLimit s := hf.1
    have h2 : (enqueueLoopResult s data).1.length < s.maxQueueItems := hf.2
    refine ⟨rfl, h1, ?_⟩
    show ((enqueueLoopResult s data).1 ++
        [({ type := ItemType.audio, value := 0, gen := s.currentGen,
            data := data, offset := 0 } : StreamItem)]).length ≤ s.maxQueueItems
    rw [List.length_append]
    simp only [List.length_singleton]
    omega
  · intro hfalse
    rw [hca, if_neg (by rw [hfalse]; exact Bool.false_ne_true)]
    refine ⟨rfl, ?_⟩
    intro it hmem
    show it.type ≠ ItemType.audio
    have hr := enqueueDropLoop_reject (enqueueLimit s) s.maxQueueItems data.length
      (s.outQ.length + 1) s.outQ s.queuedAudioBytes (by omega) hfalse
    exact hr it hmem

theorem enqueue_limits_c6_witness :
    (beginUtterance initState).1.currentGen ≠ 0 ∧
    (1 : Nat) = (beginUtterance initState).1.currentGen ∧
    ([5] : List Nat) ≠ [] ∧
    markersOf (enqueueAudioFromHook (beginUtterance initState).1 1 [5]).outQ =
      markersOf (beginUtterance initState).1.outQ :=
  ⟨by decide, by decide, by decide,
   (enqueue_limits_c6 (beginUtterance initState).1 1 [5]
     (by decide) (by decide) (by decide)).2.1⟩

/- ------------------------------------------------------------
C1: generation isolation after sv_stop.
------------------------------------------------------------ -/

/-- The stale-item drop loop is exactly dropWhile on a mismatched
generation. -/
theorem dropStaleLoop_dropWhile (g : Nat) :
    ∀ q b, (dropStaleLoop g q b).1 = q.dropWhile (fun it => decide (it.gen ≠ g)) := by
  intro q
  induction q with
  | nil => intro b; rfl
  | cons hd tl ih =>
    intro b
    rw [dropStaleLoop]
    by_cases hg : hd.gen ≠ g
    · rw [if_pos hg, List.dropWhile_cons_of_pos (by simpa using hg)]
      exact ih _
    · rw [if_neg hg, List.dropWhile_cons_of_neg (by simpa using hg)]

theorem dropStaleLoop_mem (g : Nat) :
    ∀ q b, ∀ it ∈ (dropStaleLoop g q b).1, it ∈ q := by
  intro q
  induction q with
  | nil => intro b it h; exact h
  | cons hd tl ih =>
    intro b it h
    rw [dropStaleLoop] at h
    split_ifs at h
    · exact List.mem_cons_of_mem hd (ih _ it h)
    · exact List.mem_cons_of_mem hd (ih _ it h)
    · exact h

theorem popEmptyFrontAudio_mem :
    ∀ q, ∀ it ∈ popEmptyFrontAudio q, it ∈ q := by
  intro q
  induction q with
  | nil => intro it h; exact h
  | cons hd tl ih =>
    intro it h
    rw [popEmptyFrontAudio] at h
    split_ifs at h
    · exact List.mem_cons_of_mem hd (ih it h)
    · exact h

theorem leadTrimFirstAudio_gens (f : StreamItem → Nat) (P : Nat → Prop) :
    ∀ q b, (∀ it ∈ q, P it.gen) →
      ∀ it2 ∈ (leadTrimFirstAudio f q b).1, P it2.gen := by
  intro q
  induction q with
  | nil => intro b hq it2 h2; exact absurd h2 (by simp [leadTrimFirstAudio])
  | cons hd tl ih =>
    intro b hq
    simp only [leadTrimFirstAudio]
    split_ifs <;> intro it2 h2 <;>
      rcases List.mem_cons.1 h2 with rfl | hm <;>
      first
        | exact hq hd (List.mem_cons_self hd tl)
        | exact hq it2 (List.mem_cons_self it2 tl)
        | exact hq it2 (List.mem_cons_of_mem hd hm)
        | exact ih b (fun it3 h3 => hq it3 (List.mem_cons_of_mem hd h3)) it2 hm

theorem trailTrimAdjust_gen (f : StreamItem → Nat) (it : StreamItem) (b : Nat) :
    (trailTrimAdjust f it b).1.gen = it.gen := by
  simp only [trailTrimAdjust]
  split_ifs <;> rfl

theorem tailTrimLastAudioRev_gens (f : StreamItem → Nat) (P : Nat → Prop) :
    ∀ q b, (∀ it ∈ q, P it.gen) →
      ∀ it2 ∈ (tailTrimLastAudioRev f q b).1, P it2.gen := by
  intro q
  induction q with
  | nil => intro b hq it2 h2; exact absurd h2 (by simp [tailTrimLastAudioRev])
  | cons hd tl ih =>
    intro b hq
    simp only [tailTrimLastAudioRev]
    split_ifs <;> intro it2 h2 <;>
      rcases List.mem_cons.1 h2 with rfl | hm <;>
      first
        | (rw [trailTrimAdjust_gen]
           exact hq hd (List.mem_cons_self hd tl))
        | exact hq it2 (List.mem_cons_self it2 tl)
        | exact hq it2 (List.mem_cons_of_mem hd hm)
        | exact ih b (fun it3 h3 => hq it3 (List.mem_cons_of_mem hd h3)) it2 hm

theorem tailTrimLastAudio_gens (f : StreamItem → Nat) (P : Nat → Prop)
    (q : List StreamItem) (b : Nat) (hq : ∀ it ∈ q, P it.gen) :
    ∀ it2 ∈ (tailTrimLastAudio f q b).1, P it2.gen := by
  intro it2 h2
  rw [tailTrimLastAudio] at h2
  simp only [List.mem_reverse] at h2
  exact tailTrimLastAudioRev_gens f P q.reverse b
    (fun it3 h3 => hq it3 (List.mem_reverse.1 h3)) it2 h2

theorem svReadTrimBlock_gens (s : SV_STATE) (c : Nat) (P : Nat → Prop)
    (q : List StreamItem) (b : Nat) (hq : ∀ it ∈ q, P it.gen) :
    ∀ it2 ∈ (svReadTrimBlock s c q b).1, P it2.gen := by
  simp only [svReadTrimBlock]
  split_ifs <;>
    first
      | exact hq
      | exact fun it2 h2 => leadTrimFirstAudio_gens _ P q b hq it2
          (popEmptyFrontAudio_mem _ it2 h2)
      | exact tailTrimLastAudio_gens _ P _ _
          (fun it2 h2 => leadTrimFirstAudio_gens _ P q b hq it2
            (popEmptyFrontAudio_mem _ it2 h2))
      | exact tailTrimLastAudio_gens _ P _ _ hq

theorem svReadDeliver_gens (s1 : SV_STATE) (cap : Int) (P : Nat → Prop)
    (hq : ∀ it ∈ s1.outQ, P it.gen) :
    ∀ it ∈ (svReadDeliver s1 cap).state.outQ, P it.gen := by
  simp only [svReadDeliver]
  split
  · exact hq
  next front rest heq =>
    rw [heq] at hq
    simp only [List.mem_cons] at hq
    split_ifs <;> intro it hmem <;>
      first
        | exact hq it (Or.inr hmem)
        | (rcases List.mem_cons.1 hmem with rfl | hm
           · first
               | exact hq front (Or.inl rfl)
               | exact hq it (Or.inl rfl)
           · exact hq it (Or.inr hm))

theorem svReadDeliver_gen (s1 : SV_STATE) (cap : Int) (c : Nat)
    (hq : ∀ it ∈ s1.outQ, it.gen = c) :
    ∀ g, (svReadDeliver s1 cap).deliveredGen = Option.some g → g = c := by
  intro g
  simp only [svReadDeliver]
  split
  · intro h; exact absurd h (by simp)
  next front rest heq =>
    split_ifs <;> intro h <;>
      (have h2 : front.gen = g := by simpa using h
       rw [← h2]
       exact hq front (by rw [heq]; exact List.mem_cons_self front rest))

theorem svReadDeliver_proj (s1 : SV_STATE) (cap : Int) :
    (svReadDeliver s1 cap).state.currentGen = s1.currentGen ∧
    (svReadDeliver s1 cap).state.genCounter = s1.genCounter := by
  simp only [svReadDeliver]
  split
  · exact ⟨rfl, rfl⟩
  · split_ifs <;> exact ⟨rfl, rfl⟩

/-- sv_read never changes the current generation or the generation
counter. -/
theorem sv_read_proj (t : SV_STATE) (cap : Int) :
    (sv_read t cap).state.currentGen = t.currentGen ∧
    (sv_read t cap).state.genCounter = t.genCounter := by
  simp only [sv_read]
  split_ifs <;>
    first
      | exact ⟨rfl, rfl⟩
      | exact svReadDeliver_proj _ cap

/-- The queue left by sv_read carries only generations already present in
the incoming queue (stale-drop, trims and delivery never invent one). -/
theorem sv_read_gens (t : SV_STATE) (cap : Int)
    (hq : ∀ it ∈ t.outQ, it.gen = t.currentGen) :
    ∀ it ∈ (sv_read t cap).state.outQ, it.gen = t.currentGen := by
  simp only [sv_read]
  split_ifs with hcap hgen hq0
  · exact hq
  · intro it hmem
    exact absurd hmem (by simp [clearOutputQueueLocked])
  · intro it hmem
    rw [hq0] at hmem
    exact absurd hmem (by simp)
  · exact svReadDeliver_gens _ cap (fun g => g = t.currentGen)
      (svReadTrimBlock_gens t t.currentGen (fun g => g = t.currentGen) _ _
        (fun it3 h3 => hq it3
          (dropStaleLoop_mem t.currentGen t.outQ t.queuedAudioBytes it3 h3)))
  · exact svReadDeliver_gens _ cap (fun g => g = t.currentGen)
      (fun it3 h3 => hq it3
        (dropStaleLoop_mem t.currentGen t.outQ t.queuedAudioBytes it3 h3))

/-- A generation sv_read reports was the generation of a queued item, and
delivery only happens while a generation is current. -/
theorem sv_read_deliveredGen_bound (t : SV_STATE) (cap : Int)
    (hq : ∀ it ∈ t.outQ, it.gen = t.currentGen) :
    ∀ g, (sv_read t cap).deliveredGen = Option.some g →
      g = t.currentGen ∧ t.currentGen ≠ 0 := by
  intro g h
  simp only [sv_read] at h
  split_ifs at h with hcap hgen hq0 htr
  · refine ⟨?_, hgen⟩
    refine svReadDeliver_gen _ cap t.currentGen ?_ g h
    exact svReadTrimBlock_gens t t.currentGen (fun x => x = t.currentGen) _ _
      (fun it3 h3 => hq it3
        (dropStaleLoop_mem t.currentGen t.outQ t.queuedAudioBytes it3 h3))
  · refine ⟨?_, hgen⟩
    refine svReadDeliver_gen _ cap t.currentGen ?_ g h
    exact fun it3 h3 => hq it3
      (dropStaleLoop_mem t.currentGen t.outQ t.queuedAudioBytes it3 h3)

/-- While no generation is current, sv_read reports nothing at all. -/
theorem sv_read_deliveredGen_zero (t : SV_STATE) (cap : Int)
    (h : t.currentGen = 0) :
    (sv_read t cap).deliveredGen = Option.none := by
  simp only [sv_read]
  split_ifs with hcap
  · rfl
  · rfl

/-- With the consumer cancelled (currentGen = 0) and a valid capacity,
sv_read returns zero bytes of type NONE and clears the queue. -/
theorem sv_read_at_zero (t : SV_STATE) (cap : Int) (h : t.currentGen = 0)
    (hcap : ¬ cap < 0) :
    (sv_read t cap).bytes = 0 ∧ (sv_read t cap).rtype = ItemType.none ∧
    (sv_read t cap).deliveredGen = Option.none ∧
    (sv_read t cap).state.outQ = [] := by
  simp only [sv_read]
  rw [if_neg hcap, if_pos h]
  exact ⟨rfl, rfl, rfl, rfl⟩

theorem pushMarker_proj (t : SV_STATE) (ty : ItemType) (v : Int) (g : Nat) :
    (pushMarker t ty v g).currentGen = t.currentGen ∧
    (pushMarker t ty v g).genCounter = t.genCounter := by
  unfold pushMarker
  split_ifs <;> exact ⟨rfl, rfl⟩

theorem enqueueAudioFromHook_gens (t : SV_STATE) (gen : Nat) (d : List Nat)
    (hq : ∀ it ∈ t.outQ, it.gen = t.currentGen) :
    ∀ it ∈ (enqueueAudioFromHook t gen d).outQ, it.gen = t.currentGen := by
  simp only [enqueueAudioFromHook]
  split_ifs with h1 h2 h3 h4 h5 <;>
    first
      | exact hq
      | (intro it hmem
         rcases List.mem_append.1 hmem with hm | hm
         · exact hq it (enqueueDropLoop_subset _ _ _ _ _ _ it hm)
         · simp only [List.mem_singleton] at hm
           subst hm
           show gen = t.currentGen
           omega)
      | (intro it hmem
         exact hq it (enqueueDropLoop_subset _ _ _ _ _ _ it hmem))

theorem pushMarker_gens (t : SV_STATE) (ty : ItemType) (v : Int) (g : Nat)
    (hq : ∀ it ∈ t.outQ, it.gen = t.currentGen) :
    ∀ it ∈ (pushMarker t ty v g).outQ, it.gen = t.currentGen := by
  simp only [pushMarker]
  split_ifs with h1
  · exact hq
  · intro it hmem
    rcases List.mem_append.1 hmem with hm | hm
    · exact hq it hm
    · simp only [List.mem_singleton] at hm
      subst hm
      show g = t.currentGen
      omega

theorem stepEv_currentGen_zero (t : SV_STATE) (ev : WEvent)
    (hev : ev ≠ WEvent.beginUtt) (h : t.currentGen = 0) :
    (stepEv t ev).currentGen = 0 := by
  cases ev with
  | stopEv => rfl
  | hookAudio g d =>
    show (enqueueAudioFromHook t g d).currentGen = 0
    rw [(enqueueAudioFromHook_state t g d).1]
    exact h
  | markerEv ty v g =>
    show (pushMarker t ty v g).currentGen = 0
    rw [(pushMarker_proj t ty v g).1]
    exact h
  | readEv cap =>
    show (sv_read t cap).state.currentGen = 0
    rw [(sv_read_proj t cap).1]
    exact h
  | beginUtt => exact absurd rfl hev
  | gateOff => exact h

theorem runEvents_currentGen_zero :
    ∀ evs (t : SV_STATE), WEvent.beginUtt ∉ evs → t.currentGen = 0 →
      (runEvents t evs).currentGen = 0 := by
  intro evs
  induction evs with
  | nil => intro t _ h; exact h
  | cons ev rest ih =>
    intro t hmem h
    have h1 : ev ≠ WEvent.beginUtt := fun he => hmem (he ▸ List.mem_cons_self ev rest)
    have h2 : WEvent.beginUtt ∉ rest := fun hr => hmem (List.mem_cons_of_mem ev hr)
    exact ih (stepEv t ev) h2 (stepEv_currentGen_zero t ev h1 h)

/-- The generation fence after a stop at counter value g0: queued items
carry the current generation, the current generation is zero or a
post-stop one, and the counter never falls below g0. -/
def genFence (g0 : Nat) (t : SV_STATE) : Prop :=
  (∀ it ∈ t.outQ, it.gen = t.currentGen) ∧
  (t.currentGen = 0 ∨ g0 ≤ t.currentGen) ∧
  g0 ≤ t.genCounter

theorem stepEv_genFence (g0 : Nat) (t : SV_STATE) (ev : WEvent)
    (h : genFence g0 t) : genFence g0 (stepEv t ev) := by
  obtain ⟨hq, hcg, hgc⟩ := h
  cases ev with
  | stopEv =>
    refine ⟨?_, Or.inl rfl, hgc⟩
    intro it hmem
    exact absurd hmem (by simp [stepEv, sv_stop])
  | hookAudio g d =>
    refine ⟨?_, ?_, ?_⟩
    · show ∀ it ∈ (enqueueAudioFromHook t g d).outQ,
        it.gen = (enqueueAudioFromHook t g d).currentGen
      simp only [(enqueueAudioFromHook_state t g d).1]
      exact enqueueAudioFromHook_gens t g d hq
    · show (enqueueAudioFromHook t g d).currentGen = 0 ∨
        g0 ≤ (enqueueAudioFromHook t g d).currentGen
      rw [(enqueueAudioFromHook_state t g d).1]
      exact hcg
    · show g0 ≤ (enqueueAudioFromHook t g d).genCounter
      rw [(enqueueAudioFromHook_state t g d).2.2.1]
      exact hgc
  | markerEv ty v g =>
    refine ⟨?_, ?_, ?_⟩
    · show ∀ it ∈ (pushMarker t ty v g).outQ,
        it.gen = (pushMarker t ty v g).currentGen
      simp only [(pushMarker_proj t ty v g).1]
      exact pushMarker_gens t ty v g hq
    · show (pushMarker t ty v g).currentGen = 0 ∨
        g0 ≤ (pushMarker t ty v g).currentGen
      rw [(pushMarker_proj t ty v g).1]
      exact hcg
    · show g0 ≤ (pushMarker t ty v g).genCounter
      rw [(pushMarker_proj t ty v g).2]
      exact hgc
  | readEv cap =>
    refine ⟨?_, ?_, ?_⟩
    · show ∀ it ∈ (sv_read t cap).state.outQ,
        it.gen = (sv_read t cap).state.currentGen
      simp only [(sv_read_proj t cap).1]
      exact sv_read_gens t cap hq
    · show (sv_read t cap).state.currentGen = 0 ∨
        g0 ≤ (sv_read t cap).state.currentGen
      rw [(sv_read_proj t cap).1]
      exact hcg
    · show g0 ≤ (sv_read t cap).state.genCounter
      rw [(sv_read_proj t cap).2]
      exact hgc
  | beginUtt =>
    refine ⟨?_, Or.inr ?_, ?_⟩
    · intro it hmem
      exact absurd hmem (by simp [stepEv, beginUtterance])
    · show g0 ≤ t.genCounter
      exact hgc
    · show g0 ≤ t.genCounter + 1
      omega
  | gateOff => exact ⟨hq, hcg, hgc⟩

theorem runEvents_genFence (g0 : Nat) :
    ∀ evs (t : SV_STATE), genFence g0 t → genFence g0 (runEvents t evs) := by
  intro evs
  induction evs with
  | nil => intro t h; exact h
  | cons ev rest ih =>
    intro t h
    exact ih (stepEv t ev) (stepEv_genFence g0 t ev h)

/-- **C1.** After sv_stop returns, no item of a generation current at or
before the stop is ever reported by sv_read: sv_stop zeroes the current
generation and clears the queue; while the current generation is zero,
sv_read returns zero bytes of type NONE and clears the queue; the hook
enqueue drops buffers whose generation differs from the current one; the
head of sv_read drops exactly the leading items of a stale generation;
along any event trace after the stop that starts no new utterance, the
current generation stays zero and every read reports no item; and any
generation a read ever reports after the stop (even once new utterances
begin) is at least the generation counter at the stop, hence not one
current at or before it. -/
theorem stop_isolation_c1 (s : SV_STATE) :
    ((sv_stop s).currentGen = 0 ∧ (sv_stop s).outQ = []) ∧
    (∀ (t : SV_STATE) (cap : Int), t.currentGen = 0 → ¬ cap < 0 →
      (sv_read t cap).bytes = 0 ∧ (sv_read t cap).rtype = ItemType.none ∧
      (sv_read t cap).deliveredGen = Option.none ∧
      (sv_read t cap).state.outQ = []) ∧
    (∀ (t : SV_STATE) (gen : Nat) (data : List Nat),
      gen ≠ t.currentGen → enqueueAudioFromHook t gen data = t) ∧
    (∀ (g : Nat) (q : List StreamItem) (b : Nat),
      (dropStaleLoop g q b).1 = q.dropWhile (fun it => decide (it.gen ≠ g))) ∧
    (∀ evs, WEvent.beginUtt ∉ evs →
      (runEvents (sv_stop s) evs).currentGen = 0 ∧
      ∀ cap, (sv_read (runEvents (sv_stop s) evs) cap).deliveredGen
        = Option.none) ∧
    (∀ evs (cap : Int) (g : Nat),
      (sv_read (runEvents (sv_stop s) evs) cap).deliveredGen = Option.some g →
      s.genCounter ≤ g) := by
  refine ⟨⟨rfl, rfl⟩, ?_, ?_, ?_, ?_, ?_⟩
  · intro t cap h hcap
    exact sv_read_at_zero t cap h hcap
  · intro t gen data hne
    unfold enqueueAudioFromHook
    split_ifs with h1 h2 <;> first | rfl | exact absurd (Or.inr hne) h2
  · intro g q b
    exact dropStaleLoop_dropWhile g q b
  · intro evs hnb
    have h0 : (runEvents (sv_stop s) evs).currentGen = 0 :=
      runEvents_currentGen_zero evs (sv_stop s) hnb rfl
    exact ⟨h0, fun cap => sv_read_deliveredGen_zero _ cap h0⟩
  · intro evs cap g hdel
    have hf : genFence s.genCounter (runEvents (sv_stop s) evs) := by
      refine runEvents_genFence s.genCounter evs (sv_stop s)
        ⟨?_, Or.inl rfl, le_refl _⟩
      intro it hmem
      exact absurd hmem (by simp [sv_stop])
    obtain ⟨hq2, hcg2, hgc2⟩ := hf
    obtain ⟨hge, hne⟩ := sv_read_deliveredGen_bound _ cap hq2 g hdel
    rcases hcg2 with h0 | hle
    · exact absurd h0 hne
    · rw [hge]
      exact hle

theorem stop_isolation_c1_witness :
    WEvent.beginUtt ∉ [WEvent.hookAudio 1 [7], WEvent.readEv 4, WEvent.stopEv] ∧
    (runEvents (sv_stop initState)
      [WEvent.hookAudio 1 [7], WEvent.readEv 4, WEvent.stopEv]).currentGen = 0 :=
  ⟨by decide, ((stop_isolation_c1 initState).2.2.2.2.1 _ (by decide)).1⟩

end SoftVoice
